import Mathlib

/-!
# llamafile/sycl.c : just-in-time loader of the SYCL backend

A shallow embedding of `llamafile/sycl.c`.  Every call that leaves the
translation unit (filesystem, subprocess, dynamic linker, the loaded
library itself) is answered by an oracle of the environment `Env`.  An
oracle sees the whole history of the process so far, so an `Env` is an
arbitrary deterministic environment.  Every such call is recorded, with
its answer, in the trace of the state (newest event first).
-/

namespace Llamafile

/-! ## Data model -/

/-- Modelled from the spec: the acceleration-mode selector `FLAG_gpu` of
`llamafile.h` (absent from the sources at hand), "one of Auto,
ThisBackendForced, Disabled, OtherBackendForced".  `AUTO` is
`LLAMAFILE_GPU_AUTO` and `SYCL` is `LLAMAFILE_GPU_SYCL`. -/
inductive Gpu where
  | AUTO
  | SYCL
  | DISABLE
  | OTHER
  deriving DecidableEq, Repr

/-- Modelled from the spec: the answer of the staleness oracle
`llamafile_is_file_newer_than`, "one of ReferenceNewer,
DerivedNewerOrEqual, Error".  The source switches on `-1` (`error`),
`false` (`no`) and `true` (`yes`) and declares every other value
unreachable. -/
inductive Newer where
  | error
  | no
  | yes
  deriving DecidableEq, Repr

/-- What `waitpid(pid, &ws, 0)` gives: the wait status `ws` when it does
not return `-1`, the value of `errno` when it does. -/
inductive WaitResult where
  | status (ws : Int)
  | fail (errno : Nat)
  deriving DecidableEq, Repr

/-- The calls that leave `sycl.c`, each with its arguments and its answer. -/
inductive Event where
  | llamafile_has_metal (r : Bool)
  | llamafile_describe_gpu (r : String)
  | mkdir (path : String) (mode : Nat) (rc : Int) (errno : Nat)
  | llamafile_is_file_newer_than (path other : String) (r : Newer)
  | llamafile_extract (zip dst : String) (ok : Bool)
  | commandv (name : String) (r : Option String)
  | getenv (name : String) (r : Option String)
  | stat (path : String) (r : Option Nat)
  | mkostemp (template : String) (fd : Int) (path : String)
  | close (fd : Int)
  | llamafile_log_command (args : List String)
  | posix_spawnp (args : List String) (err : Nat) (pid : Int)
  | waitpid (pid : Int) (r : WaitResult)
  | rename (src dst : String) (rc : Int)
  | unlink (path : String)
  | cosmo_dlopen (path : String) (lib : Nat)
  | cosmo_dlerror (r : Option String)
  | cosmo_dlsym (lib : Nat) (sym : String) (p : Nat)
  | cosmo_dlclose (lib : Nat)
  | ggml_backend_api (r : Nat)
  | ggml_sycl_link (fn api : Nat) (r : Bool)
  | invoke (fn : Nat) (args : List Int) (r : Int)
  | tinylog (msg : String)
  | perror (msg : String)
  | tinyprint (fd : Nat) (msg : String)
  | exit (code : Int)
  deriving DecidableEq, Repr

/-- The names of the function-pointer members of `struct Sycl`. -/
inductive Field where
  | reg_devices
  | link
  | backend_init
  | buffer_type
  | host_buffer_type
  | split_buffer_type
  | print_sycl_devices
  | get_gpu_list
  | get_device_description
  | get_device_count
  | get_device_memory
  | get_device_index
  | get_device_id
  | set_single_device_mode
  | set_mul_device_mode
  deriving DecidableEq, Repr

/-- The static `struct Sycl ggml_sycl`.  A function pointer is the address
`cosmo_dlsym` gave, `0` for the null pointer. -/
structure Sycl where
  supported : Bool
  once : Nat
  reg_devices : Nat
  link : Nat
  backend_init : Nat
  buffer_type : Nat
  host_buffer_type : Nat
  split_buffer_type : Nat
  print_sycl_devices : Nat
  get_gpu_list : Nat
  get_device_description : Nat
  get_device_count : Nat
  get_device_memory : Nat
  get_device_index : Nat
  get_device_id : Nat
  set_single_device_mode : Nat
  set_mul_device_mode : Nat
  deriving DecidableEq, Repr

/-- Assignment to one function-pointer member. -/
def Sycl.set (t : Sycl) (f : Field) (p : Nat) : Sycl :=
  match f with
  | .reg_devices => { t with reg_devices := p }
  | .link => { t with link := p }
  | .backend_init => { t with backend_init := p }
  | .buffer_type => { t with buffer_type := p }
  | .host_buffer_type => { t with host_buffer_type := p }
  | .split_buffer_type => { t with split_buffer_type := p }
  | .print_sycl_devices => { t with print_sycl_devices := p }
  | .get_gpu_list => { t with get_gpu_list := p }
  | .get_device_description => { t with get_device_description := p }
  | .get_device_count => { t with get_device_count := p }
  | .get_device_memory => { t with get_device_memory := p }
  | .get_device_index => { t with get_device_index := p }
  | .get_device_id => { t with get_device_id := p }
  | .set_single_device_mode => { t with set_single_device_mode := p }
  | .set_mul_device_mode => { t with set_mul_device_mode := p }

/-- The state of the process as far as `sycl.c` is concerned: its one
static object and the history of its calls, newest first. -/
structure State where
  ggml_sycl : Sycl
  trace : List Event
  deriving DecidableEq, Repr

/-- The state at process start: `ggml_sycl` is zero-initialised. -/
def State.init : State :=
  { ggml_sycl := ⟨false, 0, 0, 0, 0, 0, 0, 0, 0, 0, 0, 0, 0, 0, 0, 0, 0⟩, trace := [] }

/-- Record one call. -/
def State.log (s : State) (e : Event) : State :=
  { ggml_sycl := s.ggml_sycl, trace := e :: s.trace }

/-- The assignment `ggml_sycl.supported = b`. -/
def State.set_supported (s : State) (b : Bool) : State :=
  { ggml_sycl := { s.ggml_sycl with supported := b }, trace := s.trace }

/-- The assignment `ggml_sycl.once = n`. -/
def State.set_once (s : State) (n : Nat) : State :=
  { ggml_sycl := { s.ggml_sycl with once := n }, trace := s.trace }

/-- The assignment `ggml_sycl.f = p`. -/
def State.assign (s : State) (f : Field) (p : Nat) : State :=
  { ggml_sycl := s.ggml_sycl.set f p, trace := s.trace }

/-- The environment: platform constants, configuration flags and one oracle
per external function.  The first argument of an oracle is the history. -/
structure Env where
  PATH_MAX : Nat
  EINTR : Nat
  EEXIST : Nat
  IsWindows : Bool
  IsXnu : Bool
  IsLinux : Bool
  IsBsd : Bool
  IsOpenbsd : Bool
  FLAG_gpu : Gpu
  FLAG_recompile : Bool
  FLAG_nocompile : Bool
  app_dir : String
  llamafile_has_metal : List Event → Bool
  llamafile_describe_gpu : List Event → String
  mkdir : List Event → String → Nat → Int × Nat
  llamafile_is_file_newer_than : List Event → String → String → Newer
  llamafile_extract : List Event → String → String → Bool
  commandv : List Event → String → Nat → Option String
  getenv : List Event → String → Option String
  stat : List Event → String → Option Nat
  mkostemp : List Event → String → Int × String
  posix_spawnp : List Event → List String → Nat × Int
  waitpid : List Event → Int → WaitResult
  rename : List Event → String → String → Int
  cosmo_dlopen : List Event → String → Nat
  cosmo_dlerror : List Event → Option String
  cosmo_dlsym : List Event → Nat → String → Nat
  ggml_backend_api : List Event → Nat
  ggml_sycl_link : List Event → Nat → Nat → Bool
  invoke : List Event → Nat → List Int → Int

/-- How a call that may end the process comes back: it returns, the
process has exited, or the fuel of the wait loop ran out. -/
inductive Res (α : Type) where
  | ret (a : α) (s : State)
  | exited (code : Int) (s : State)
  | timeout

/-! ## C string helpers -/

/-- The libc `strlcpy(dst, src, size)`: the new content of `dst`. -/
def strlcpy (src : String) (size : Nat) : String :=
  ⟨src.data.take (size - 1)⟩

/-- The libc `strlcat(dst, src, size)`: the new content of `dst`. -/
def strlcat (dst src : String) (size : Nat) : String :=
  if size ≤ dst.length then dst else ⟨(dst.data ++ src.data).take (size - 1)⟩

/-- Modelled from the spec: `llamafile_get_app_dir(buf, size)` (absent from
the sources at hand) fills `buf` with the "per-application data
directory", which is fixed for the process. -/
def llamafile_get_app_dir (env : Env) (size : Nat) : String :=
  strlcpy env.app_dir size

/-! ## The source table and the compiler command line -/

/-- One entry of `srcs[]`. -/
structure Source where
  zip : String
  name : String
  deriving DecidableEq, Repr

/-- The table `srcs[]`. -/
def srcs : List Source :=
  [ ⟨"/zip/llama.cpp/ggml.h", "ggml.h"⟩,
    ⟨"/zip/llamafile/llamafile.h", "llamafile.h"⟩,
    ⟨"/zip/llama.cpp/ggml-impl.h", "ggml-impl.h"⟩,
    ⟨"/zip/llama.cpp/ggml-sycl.h", "ggml-sycl.h"⟩,
    ⟨"/zip/llama.cpp/ggml-alloc.h", "ggml-alloc.h"⟩,
    ⟨"/zip/llama.cpp/ggml-common.h", "ggml-common.h"⟩,
    ⟨"/zip/llama.cpp/ggml-backend.h", "ggml-backend.h"⟩,
    ⟨"/zip/llama.cpp/ggml-backend-impl.h", "ggml-backend-impl.h"⟩,
    ⟨"/zip/llama.cpp/ggml-sycl.cpp", "ggml-sycl.cpp"⟩ ]

/-- The macro `SYCL_FLAGS`. -/
def SYCL_FLAGS : List String :=
  ["-fsycl", "--shared", "-fPIC", "-DGGML_SYCL_F16",
   "-DNDEBUG", "-DGGML_BUILD=1", "-DGGML_SHARED=1", "-DGGML_MULTIPLATFORM",
   "-march=native", "-mtune=native",
   "-Wno-deprecated-declarations", "-Wno-write-strings",
   "-Wno-switch", "-L$\x7bMKLROOT\x7d/lib", "-g", "-O0"]

/-- The macro `SYCL_LIBS`. -/
def SYCL_LIBS : List String :=
  ["-lOpenCL", "-lmkl_core", "-lpthread", "-lmkl_sycl_blas",
   "-lmkl_intel_ilp64", "-lmkl_tbb_thread"]

/-! ## Small helpers of `sycl.c` -/

/-- `Dlerror()`. -/
def Dlerror (env : Env) (s : State) : String × State :=
  let msg := env.cosmo_dlerror s.trace
  let s := s.log (.cosmo_dlerror msg)
  match msg with
  | none => ("null dlopen error", s)
  | some m => (m, s)

/-- `GetDsoExtension()`. -/
def GetDsoExtension (env : Env) : String :=
  if env.IsWindows then "dll"
  else if env.IsXnu then "dylib"
  else "so"

/-- `FileExists(path)`: `!stat(path, &st)`. -/
def FileExists (env : Env) (path : String) (s : State) : Bool × State :=
  let r := env.stat s.trace path
  (r.isSome, s.log (.stat path r))

/-- `S_ISDIR(mode)`. -/
def S_ISDIR (mode : Nat) : Bool :=
  mode &&& 0o170000 == 0o040000

/-- `IsExecutable(path)`:
`!stat(path, &st) && (st.st_mode & 0111) && !S_ISDIR(st.st_mode)`. -/
def IsExecutable (env : Env) (path : String) (s : State) : Bool × State :=
  let r := env.stat s.trace path
  let s := s.log (.stat path r)
  match r with
  | none => (false, s)
  | some mode => (mode &&& 0o111 != 0 && !S_ISDIR mode, s)

/-- `CreateTempPath(path, tmp)`: the temporary path on success. -/
def CreateTempPath (env : Env) (path : String) (s : State) : Option String × State :=
  let tmp := strlcat (strlcpy path env.PATH_MAX) ".XXXXXX" env.PATH_MAX
  let r := env.mkostemp s.trace tmp
  let s := s.log (.mkostemp tmp r.1 r.2)
  if r.1 ≠ -1 then (some r.2, s.log (.close r.1))
  else (none, s.log (.perror r.2))

/-! ## The compiler driver -/

/-- The loop `while (waitpid(pid, &ws, 0) == -1) if (errno != EINTR) fail`
of `Compile`: `some ws` when the wait succeeded, `none` when it failed with
another error than `EINTR`.  The outer `Option` is the fuel. -/
def wait_loop (env : Env) (pid : Int) : Nat → State → Option (Option Int × State)
  | 0, _ => none
  | fuel + 1, s =>
    let r := env.waitpid s.trace pid
    let s := s.log (.waitpid pid r)
    match r with
    | .status ws => some (some ws, s)
    | .fail errno =>
      if errno ≠ env.EINTR then some (none, s)
      else wait_loop env pid fuel s

/-- `Compile(src, tmp, out, args)`. -/
def Compile (env : Env) (fuel : Nat) (_src tmp out : String) (args : List String)
    (s : State) : Option (Bool × State) :=
  let s := s.log (.llamafile_log_command args)
  let r := env.posix_spawnp s.trace args
  let s := s.log (.posix_spawnp args r.1 r.2)
  if r.1 ≠ 0 then
    some (false, (s.log (.perror (args.headD ""))).log (.unlink tmp))
  else
    match wait_loop env r.2 fuel s with
    | none => none
    | some (none, s) =>
      some (false, (s.log (.perror (args.headD ""))).log (.unlink tmp))
    | some (some ws, s) =>
      if ws ≠ 0 then
        some (false, (s.log (.tinylog ("Compile: warning: " ++ args.headD "" ++
          " returned nonzero exit status\n"))).log (.unlink tmp))
      else
        let rc := env.rename s.trace tmp out
        let s := s.log (.rename tmp out rc)
        if rc ≠ 0 then
          some (false, (s.log (.perror out)).log (.unlink tmp))
        else
          some (true, s)

/-- `get_compiler_path(path)`: the path found, `none` for `false`. -/
def get_compiler_path (env : Env) (s : State) : Option String × State :=
  let name := if env.IsWindows then "icpx.exe" else "icpx"
  let r := env.commandv s.trace name env.PATH_MAX
  let s := s.log (.commandv name r)
  match r with
  | some p => (some p, s)
  | none =>
    let s := s.log (.tinylog ("get_compiler_path: note: " ++ name ++ " not found on $PATH\n"))
    let compiler_path := env.getenv s.trace "CMPLR_ROOT"
    let s := s.log (.getenv "CMPLR_ROOT" compiler_path)
    let check (path : String) (s : State) : Option String × State :=
      let path := strlcat path name env.PATH_MAX
      let x := IsExecutable env path s
      if x.1 then (some path, x.2)
      else (none, x.2.log (.tinylog ("get_compiler_path: note: " ++ path ++ " does not exist\n")))
    match compiler_path with
    | some root =>
      if root = "" then (none, s)
      else check (strlcat (strlcpy root env.PATH_MAX) "/bin/" env.PATH_MAX) s
    | none =>
      let s := s.log (.tinylog ("get_compiler_path: note: $CMPLR_ROOT/bin/" ++ name ++
        " does not exist\n"))
      check (strlcpy "/opt/intel/oneapi/compiler/latest/bin/" env.PATH_MAX) s

/-- `compile_sycl(compiler, dso, src)`. -/
def compile_sycl (env : Env) (fuel : Nat) (compiler dso src : String) (s : State) :
    Option (Bool × State) :=
  match CreateTempPath env dso s with
  | (none, s) => some (false, s)
  | (some tmpdso, s) =>
    let s := s.log (.tinylog "compile_sycl: note: building ggml-sycl...\n")
    match Compile env fuel src tmpdso dso
        ([compiler] ++ SYCL_FLAGS ++ ["-o", tmpdso, src] ++ SYCL_LIBS) s with
    | none => none
    | some (true, s) => some (true, s)
    | some (false, s) => some (false, s)

/-! ## The prebuilt resolver -/

/-- The archive path `extract_sycl_dso` builds in its buffer `zip[80]`. -/
def prebuilt_zip (env : Env) (name : String) : String :=
  strlcat (strlcat (strlcat (strlcpy "/zip/" 80) name 80) "." 80) (GetDsoExtension env) 80

/-- `extract_sycl_dso(dso, name)`. -/
def extract_sycl_dso (env : Env) (dso name : String) (s : State) : Bool × State :=
  let zip := prebuilt_zip env name
  let e := FileExists env zip s
  if !e.1 then
    (false, e.2.log (.tinylog ("extract_sycl_dso: note: prebuilt binary " ++ zip ++ " not found\n")))
  else
    let ok := env.llamafile_extract e.2.trace zip dso
    (ok, e.2.log (.llamafile_extract zip dso ok))

/-! ## The dynamic linker and symbol binder -/

/-- `imp(lib, sym)`. -/
def imp (env : Env) (lib : Nat) (sym : String) (s : State) : Nat × State :=
  let fn := env.cosmo_dlsym s.trace lib sym
  let s := s.log (.cosmo_dlsym lib sym fn)
  if fn = 0 then
    (fn, s.log (.tinylog ("imp: error: failed to import symbol: " ++ sym ++ "\n")))
  else (fn, s)

/-- The fifteen statements `ok &= !!(ggml_sycl.f = imp(lib, "sym"))` of
`link_sycl_dso`, in their order. -/
def imports : List (Field × String) :=
  [ (.reg_devices, "ggml_backend_sycl_reg_devices"),
    (.link, "ggml_sycl_link"),
    (.backend_init, "ggml_backend_sycl_init"),
    (.buffer_type, "ggml_backend_sycl_buffer_type"),
    (.host_buffer_type, "ggml_backend_sycl_host_buffer_type"),
    (.split_buffer_type, "ggml_backend_sycl_split_buffer_type"),
    (.print_sycl_devices, "ggml_backend_sycl_print_sycl_devices"),
    (.get_gpu_list, "ggml_sycl_get_gpu_list"),
    (.get_device_description, "ggml_sycl_get_device_description"),
    (.get_device_count, "ggml_backend_sycl_get_device_count"),
    (.get_device_memory, "ggml_backend_sycl_get_device_memory"),
    (.get_device_index, "ggml_backend_sycl_get_device_index"),
    (.get_device_id, "ggml_backend_sycl_get_device_id"),
    (.set_single_device_mode, "ggml_backend_sycl_set_single_device_mode"),
    (.set_mul_device_mode, "ggml_backend_sycl_set_mul_device_mode") ]

/-- Run the statements `ok &= !!(ggml_sycl.f = imp(lib, "sym"))` of a list,
one after the other. -/
def import_functions (env : Env) (lib : Nat) :
    List (Field × String) → Bool → State → Bool × State
  | [], ok, s => (ok, s)
  | (f, sym) :: rest, ok, s =>
    let r := imp env lib sym s
    import_functions env lib rest (ok && r.1 != 0) (r.2.assign f r.1)

/-- `link_sycl_dso(dso)`. -/
def link_sycl_dso (env : Env) (dso : String) (s : State) : Bool × State :=
  let s := s.log (.tinylog ("link_sycl_dso: note: dynamically linking " ++ dso ++ "\n"))
  let lib := env.cosmo_dlopen s.trace dso
  let s := s.log (.cosmo_dlopen dso lib)
  if lib = 0 then
    let m := Dlerror env s
    let s := m.2.log (.tinylog ("link_sycl_dso: warning: " ++ m.1 ++ ": failed to load library\n"))
    if env.IsLinux || env.IsBsd then
      let cc := env.commandv s.trace "icpx" env.PATH_MAX
      let s := s.log (.commandv "icpx" cc)
      if cc.isNone then
        (false, s.log (.tinylog
          "link_sycl_dso: note: you need to install icpx for sycl gpu support\n"))
      else (false, s)
    else (false, s)
  else
    let r := import_functions env lib imports true s
    if !r.1 then
      let s := r.2.log (.tinylog "link_sycl_dso: error: not all sycl symbols could be imported\n")
      (false, s.log (.cosmo_dlclose lib))
    else
      let api := env.ggml_backend_api r.2.trace
      let s := r.2.log (.ggml_backend_api api)
      let up := env.ggml_sycl_link s.trace s.ggml_sycl.link api
      let s := s.log (.ggml_sycl_link s.ggml_sycl.link api up)
      if up then
        (true, s.log (.tinylog "link_sycl_dso: GPU support loaded\n"))
      else
        let s := s.log (.tinylog "link_sycl_dso: No GPU devices found\n")
        (false, s.log (.cosmo_dlclose lib))

/-! ## The acquisition orchestrator -/

/-- The loop over `srcs[]` of `import_sycl_impl` ("extract source code"),
from entry `i` on: `none` where the source returns `false`, otherwise the
final `needs_rebuild` and the final content of the buffer `src`. -/
def extract_source_code (env : Env) :
    List Source → Nat → Bool → String → State → Option (Bool × String) × State
  | [], _, needs_rebuild, src, s => (some (needs_rebuild, src), s)
  | a :: rest, i, needs_rebuild, _, s =>
    let src := llamafile_get_app_dir env env.PATH_MAX
    let m : Bool × State :=
      if i = 0 then
        let r := env.mkdir s.trace src 0o755
        (r.1 != 0 && r.2 != env.EEXIST, s.log (.mkdir src 0o755 r.1 r.2))
      else (false, s)
    if m.1 then (none, m.2.log (.perror src))
    else
      let src := strlcat src a.name env.PATH_MAX
      let n := env.llamafile_is_file_newer_than m.2.trace a.zip src
      let s := m.2.log (.llamafile_is_file_newer_than a.zip src n)
      match n with
      | .error => (none, s)
      | .no => extract_source_code env rest (i + 1) needs_rebuild src s
      | .yes =>
        let ok := env.llamafile_extract s.trace a.zip src
        let s := s.log (.llamafile_extract a.zip src ok)
        if !ok then (none, s)
        else extract_source_code env rest (i + 1) true src s

/-- The path of the GGML DSO for SYCL that `import_sycl_impl` builds in its
buffer `dso`. -/
def dso_path (env : Env) : String :=
  strlcat (strlcat (llamafile_get_app_dir env env.PATH_MAX) "ggml-sycl." env.PATH_MAX)
    (GetDsoExtension env) env.PATH_MAX

/-- The statement "Try building SYCL from source" of `import_sycl_impl`
and the `return false` it falls to:
`if (compiler_path && compile_sycl(compiler_path, dso, src)) return link_sycl_dso(dso);` -/
def build_from_source (env : Env) (fuel : Nat) (compiler_path : Option String)
    (dso src : String) (s : State) : Option (Bool × State) :=
  match compiler_path with
  | none => some (false, s)
  | some compiler =>
    match compile_sycl env fuel compiler dso src s with
    | none => none
    | some (true, s) => some (link_sycl_dso env dso s)
    | some (false, s) => some (false, s)

/-- The second `switch (FLAG_gpu)` of `import_sycl_impl` ("Attempt to load
SYCL GPU support") and the `return false` after it. -/
def load_sycl (env : Env) (fuel : Nat) (needs_rebuild : Bool) (src : String) (s : State) :
    Option (Bool × State) :=
  match env.FLAG_gpu with
  | .AUTO | .SYCL =>
    let cp := get_compiler_path env s
    let dso := dso_path env
    if env.FLAG_nocompile then
      let e := FileExists env dso cp.2
      if e.1 then some (link_sycl_dso env dso e.2)
      else
        let x := extract_sycl_dso env dso "ggml-sycl" e.2
        if x.1 then some (link_sycl_dso env dso x.2)
        else some (false, x.2)
    else if !needs_rebuild && !env.FLAG_recompile then
      let n := env.llamafile_is_file_newer_than cp.2.trace src dso
      let s := cp.2.log (.llamafile_is_file_newer_than src dso n)
      match n with
      | .error => some (false, s)
      | .no => some (link_sycl_dso env dso s)
      | .yes => build_from_source env fuel cp.1 dso src s
    else build_from_source env fuel cp.1 dso src cp.2
  | _ => some (false, s)

/-- `import_sycl_impl()`. -/
def import_sycl_impl (env : Env) (fuel : Nat) (s : State) : Option (Bool × State) :=
  if env.IsOpenbsd then some (false, s)
  else
    match env.FLAG_gpu with
    | .AUTO | .SYCL =>
      let s := s.log (.tinylog "import_sycl_impl: initializing gpu module...\n")
      match extract_source_code env srcs 0 env.FLAG_recompile "" s with
      | (none, s) => some (false, s)
      | (some (needs_rebuild, src), s) => load_sycl env fuel needs_rebuild src s
    | _ => some (false, s)

/-- `import_sycl()`. -/
def import_sycl (env : Env) (fuel : Nat) (s : State) : Res Unit :=
  let metal := env.llamafile_has_metal s.trace
  let s := s.log (.llamafile_has_metal metal)
  if metal then .ret () s
  else
    match import_sycl_impl env fuel s with
    | none => .timeout
    | some (true, s) => .ret () (s.set_supported true)
    | some (false, s) =>
      if env.FLAG_gpu = .SYCL then
        let d := env.llamafile_describe_gpu s.trace
        let s := s.log (.llamafile_describe_gpu d)
        let s := s.log (.tinyprint 2 ("fatal error: support for --gpu " ++ d ++
          " was explicitly requested, but it wasn't available\n"))
        .exited 1 (s.log (.exit 1))
      else .ret () s

/-- Modelled from the spec: the one-time-execution primitive
`cosmo_once(&ggml_sycl.once, init)` of the C library, for one thread: "the
orchestrator runs at most once per process".  `once` is `0` until `init`
has been started and `2` once it has returned. -/
def cosmo_once (init : State → Res Unit) (s : State) : Res Unit :=
  if s.ggml_sycl.once = 0 then
    match init (s.set_once 1) with
    | .ret () s => .ret () (s.set_once 2)
    | .exited code s => .exited code s
    | .timeout => .timeout
  else .ret () s

/-- `llamafile_has_sycl()`. -/
def llamafile_has_sycl (env : Env) (fuel : Nat) (s : State) : Res Bool :=
  match cosmo_once (import_sycl env fuel) s with
  | .ret () s => .ret s.ggml_sycl.supported s
  | .exited code s => .exited code s
  | .timeout => .timeout

/-! ## The forwarding facade -/

/-- The call `ggml_sycl.f(args)` through a function pointer of the table:
the result the library gives. -/
def call (env : Env) (fn : Nat) (args : List Int) (s : State) : Int × State :=
  let r := env.invoke s.trace fn args
  (r, s.log (.invoke fn args r))

/-- `ggml_backend_sycl_reg_devices()`. -/
def ggml_backend_sycl_reg_devices (env : Env) (fuel : Nat) (s : State) : Res Int :=
  match llamafile_has_sycl env fuel s with
  | .ret false s => .ret 0 s
  | .ret true s => let r := call env s.ggml_sycl.reg_devices [] s; .ret r.1 r.2
  | .exited code s => .exited code s
  | .timeout => .timeout

/-- `ggml_backend_sycl_init(device)`. -/
def ggml_backend_sycl_init (env : Env) (fuel : Nat) (device : Int) (s : State) : Res Int :=
  match llamafile_has_sycl env fuel s with
  | .ret false s => .ret 0 s
  | .ret true s => let r := call env s.ggml_sycl.backend_init [device] s; .ret r.1 r.2
  | .exited code s => .exited code s
  | .timeout => .timeout

/-- `ggml_backend_sycl_buffer_type(device)`. -/
def ggml_backend_sycl_buffer_type (env : Env) (fuel : Nat) (device : Int) (s : State) :
    Res Int :=
  match llamafile_has_sycl env fuel s with
  | .ret false s => .ret 0 s
  | .ret true s => let r := call env s.ggml_sycl.buffer_type [device] s; .ret r.1 r.2
  | .exited code s => .exited code s
  | .timeout => .timeout

/-- `ggml_backend_sycl_split_buffer_type(tensor_split)`. -/
def ggml_backend_sycl_split_buffer_type (env : Env) (fuel : Nat) (tensor_split : Int)
    (s : State) : Res Int :=
  match llamafile_has_sycl env fuel s with
  | .ret false s => .ret 0 s
  | .ret true s =>
    let r := call env s.ggml_sycl.split_buffer_type [tensor_split] s; .ret r.1 r.2
  | .exited code s => .exited code s
  | .timeout => .timeout

/-- `ggml_backend_sycl_host_buffer_type()`. -/
def ggml_backend_sycl_host_buffer_type (env : Env) (fuel : Nat) (s : State) : Res Int :=
  match llamafile_has_sycl env fuel s with
  | .ret false s => .ret 0 s
  | .ret true s => let r := call env s.ggml_sycl.host_buffer_type [] s; .ret r.1 r.2
  | .exited code s => .exited code s
  | .timeout => .timeout

/-- `ggml_backend_sycl_print_sycl_devices()`. -/
def ggml_backend_sycl_print_sycl_devices (env : Env) (fuel : Nat) (s : State) : Res Unit :=
  match llamafile_has_sycl env fuel s with
  | .ret false s => .ret () s
  | .ret true s => .ret () (call env s.ggml_sycl.print_sycl_devices [] s).2
  | .exited code s => .exited code s
  | .timeout => .timeout

/-- `ggml_sycl_get_gpu_list(id_list, max_len)`. -/
def ggml_sycl_get_gpu_list (env : Env) (fuel : Nat) (id_list max_len : Int) (s : State) :
    Res Unit :=
  match llamafile_has_sycl env fuel s with
  | .ret false s => .ret () s
  | .ret true s => .ret () (call env s.ggml_sycl.get_gpu_list [id_list, max_len] s).2
  | .exited code s => .exited code s
  | .timeout => .timeout

/-- `ggml_sycl_get_device_description(device, description, description_size)`. -/
def ggml_sycl_get_device_description (env : Env) (fuel : Nat)
    (device description description_size : Int) (s : State) : Res Unit :=
  match llamafile_has_sycl env fuel s with
  | .ret false s => .ret () s
  | .ret true s =>
    .ret () (call env s.ggml_sycl.get_device_description
      [device, description, description_size] s).2
  | .exited code s => .exited code s
  | .timeout => .timeout

/-- `ggml_backend_sycl_get_device_count()`. -/
def ggml_backend_sycl_get_device_count (env : Env) (fuel : Nat) (s : State) : Res Int :=
  match llamafile_has_sycl env fuel s with
  | .ret false s => .ret 0 s
  | .ret true s => let r := call env s.ggml_sycl.get_device_count [] s; .ret r.1 r.2
  | .exited code s => .exited code s
  | .timeout => .timeout

/-- `ggml_backend_sycl_get_device_memory(device, free, total)`. -/
def ggml_backend_sycl_get_device_memory (env : Env) (fuel : Nat) (device free total : Int)
    (s : State) : Res Unit :=
  match llamafile_has_sycl env fuel s with
  | .ret false s => .ret () s
  | .ret true s =>
    .ret () (call env s.ggml_sycl.get_device_memory [device, free, total] s).2
  | .exited code s => .exited code s
  | .timeout => .timeout

/-- `ggml_backend_sycl_get_device_index(device_id)`. -/
def ggml_backend_sycl_get_device_index (env : Env) (fuel : Nat) (device_id : Int)
    (s : State) : Res Int :=
  match llamafile_has_sycl env fuel s with
  | .ret false s => .ret 0 s
  | .ret true s => let r := call env s.ggml_sycl.get_device_index [device_id] s; .ret r.1 r.2
  | .exited code s => .exited code s
  | .timeout => .timeout

/-- `ggml_backend_sycl_get_device_id(device_index)`. -/
def ggml_backend_sycl_get_device_id (env : Env) (fuel : Nat) (device_index : Int)
    (s : State) : Res Int :=
  match llamafile_has_sycl env fuel s with
  | .ret false s => .ret 0 s
  | .ret true s => let r := call env s.ggml_sycl.get_device_id [device_index] s; .ret r.1 r.2
  | .exited code s => .exited code s
  | .timeout => .timeout

/-- `ggml_backend_sycl_set_single_device_mode(main_gpu_id)`. -/
def ggml_backend_sycl_set_single_device_mode (env : Env) (fuel : Nat) (main_gpu_id : Int)
    (s : State) : Res Unit :=
  match llamafile_has_sycl env fuel s with
  | .ret false s => .ret () s
  | .ret true s =>
    .ret () (call env s.ggml_sycl.set_single_device_mode [main_gpu_id] s).2
  | .exited code s => .exited code s
  | .timeout => .timeout

/-- `ggml_backend_sycl_set_mul_device_mode()`. -/
def ggml_backend_sycl_set_mul_device_mode (env : Env) (fuel : Nat) (s : State) : Res Unit :=
  match llamafile_has_sycl env fuel s with
  | .ret false s => .ret () s
  | .ret true s => .ret () (call env s.ggml_sycl.set_mul_device_mode [] s).2
  | .exited code s => .exited code s
  | .timeout => .timeout

/-! ## Traces -/

/-- The name of the call an event records. -/
inductive Tag where
  | llamafile_has_metal
  | llamafile_describe_gpu
  | mkdir
  | llamafile_is_file_newer_than
  | llamafile_extract
  | commandv
  | getenv
  | stat
  | mkostemp
  | close
  | llamafile_log_command
  | posix_spawnp
  | waitpid
  | rename
  | unlink
  | cosmo_dlopen
  | cosmo_dlerror
  | cosmo_dlsym
  | cosmo_dlclose
  | ggml_backend_api
  | ggml_sycl_link
  | invoke
  | tinylog
  | perror
  | tinyprint
  | exit
  deriving DecidableEq, Repr

/-- The call an event records. -/
def Event.tag : Event → Tag
  | .llamafile_has_metal _ => .llamafile_has_metal
  | .llamafile_describe_gpu _ => .llamafile_describe_gpu
  | .mkdir _ _ _ _ => .mkdir
  | .llamafile_is_file_newer_than _ _ _ => .llamafile_is_file_newer_than
  | .llamafile_extract _ _ _ => .llamafile_extract
  | .commandv _ _ => .commandv
  | .getenv _ _ => .getenv
  | .stat _ _ => .stat
  | .mkostemp _ _ _ => .mkostemp
  | .close _ => .close
  | .llamafile_log_command _ => .llamafile_log_command
  | .posix_spawnp _ _ _ => .posix_spawnp
  | .waitpid _ _ => .waitpid
  | .rename _ _ _ => .rename
  | .unlink _ => .unlink
  | .cosmo_dlopen _ _ => .cosmo_dlopen
  | .cosmo_dlerror _ => .cosmo_dlerror
  | .cosmo_dlsym _ _ _ => .cosmo_dlsym
  | .cosmo_dlclose _ => .cosmo_dlclose
  | .ggml_backend_api _ => .ggml_backend_api
  | .ggml_sycl_link _ _ _ => .ggml_sycl_link
  | .invoke _ _ _ => .invoke
  | .tinylog _ => .tinylog
  | .perror _ => .perror
  | .tinyprint _ _ => .tinyprint
  | .exit _ => .exit

/-- The events of `s'` that are not yet in `s`, for `s'` a later state
than `s`. -/
def added (s s' : State) : List Event :=
  s'.trace.take (s'.trace.length - s.trace.length)

/-- The state `s'` comes after `s`: `supported` and `once` are as in `s`,
and the trace is that of `s` with, in front, events whose tags are in
`tags`. -/
def Step (tags : List Tag) (s s' : State) : Prop :=
  s'.ggml_sycl.supported = s.ggml_sycl.supported ∧ s'.ggml_sycl.once = s.ggml_sycl.once ∧
    ∃ evs, s'.trace = evs ++ s.trace ∧ ∀ e ∈ evs, e.tag ∈ tags

/-- The number of waits that failed with `EINTR` right before now. -/
def eintrRun (env : Env) : List Event → Nat
  | .waitpid _ (.fail e) :: t => if e = env.EINTR then eintrRun env t + 1 else 0
  | _ => 0

/-- The name `get_compiler_path` looks for: `IsWindows() ? "icpx.exe" : "icpx"`. -/
def icpx_name (env : Env) : String :=
  if env.IsWindows then "icpx.exe" else "icpx"

/-- The path `get_compiler_path` builds when `$CMPLR_ROOT` is `root`. -/
def cmplr_root_icpx (env : Env) (root : String) : String :=
  strlcat (strlcat (strlcpy root env.PATH_MAX) "/bin/" env.PATH_MAX) (icpx_name env)
    env.PATH_MAX

/-- The path `get_compiler_path` builds when `$CMPLR_ROOT` is not set. -/
def oneapi_icpx (env : Env) : String :=
  strlcat (strlcpy "/opt/intel/oneapi/compiler/latest/bin/" env.PATH_MAX) (icpx_name env)
    env.PATH_MAX

/-- The tags of all calls. -/
def allTags : List Tag :=
  [.llamafile_has_metal, .llamafile_describe_gpu, .mkdir, .llamafile_is_file_newer_than,
   .llamafile_extract, .commandv, .getenv, .stat, .mkostemp, .close, .llamafile_log_command,
   .posix_spawnp, .waitpid, .rename, .unlink, .cosmo_dlopen, .cosmo_dlerror, .cosmo_dlsym,
   .cosmo_dlclose, .ggml_backend_api, .ggml_sycl_link, .invoke, .tinylog, .perror, .tinyprint,
   .exit]

/-- The four ways `link_sycl_dso` ends once `cosmo_dlopen` has answered
`lib`: what it returns (`b`), the events `I` of its fifteen imports and the
events `front` after them. -/
def LinkShape (env : Env) (lib : Nat) (b : Bool) (front I : List Event) : Prop :=
  (lib = 0 ∧ I = [] ∧ b = false ∧
      ∀ e ∈ front, e.tag ∈ [Tag.tinylog, Tag.commandv, Tag.cosmo_dlerror]) ∨
  (lib ≠ 0 ∧
    (∀ fs ∈ imports, ∃ p, Event.cosmo_dlsym lib fs.2 p ∈ I) ∧
    (∀ fs ∈ imports, (∀ t, env.cosmo_dlsym t lib fs.2 = 0) →
      Event.cosmo_dlsym lib fs.2 0 ∈ I) ∧
    (((∃ sym, Event.cosmo_dlsym lib sym 0 ∈ I) ∧ b = false ∧
        ∃ m, front = [Event.cosmo_dlclose lib, Event.tinylog m]) ∨
     ((∀ sym, Event.cosmo_dlsym lib sym 0 ∉ I) ∧ b = true ∧
        ∃ fn api m, front = [Event.tinylog m, Event.ggml_sycl_link fn api true,
          Event.ggml_backend_api api]) ∨
     ((∀ sym, Event.cosmo_dlsym lib sym 0 ∉ I) ∧ b = false ∧
        ∃ fn api m, front = [Event.cosmo_dlclose lib, Event.tinylog m,
          Event.ggml_sycl_link fn api false, Event.ggml_backend_api api])))

/-- The events of a trace that record calls of one function. -/
def calls (tag : Tag) (t : List Event) : List Event :=
  t.filter (fun e => decide (e.tag = tag))

/-- The tags of the calls `import_sycl_impl` makes before it links. -/
def preTags : List Tag :=
  [.mkdir, .llamafile_is_file_newer_than, .llamafile_extract, .perror, .commandv, .getenv,
   .stat, .tinylog, .mkostemp, .close, .llamafile_log_command, .posix_spawnp, .waitpid,
   .rename, .unlink]

/-- The tags of the calls `import_sycl_impl` makes. -/
def implTags : List Tag :=
  preTags ++ [.cosmo_dlopen, .cosmo_dlerror, .cosmo_dlsym, .cosmo_dlclose, .ggml_backend_api,
    .ggml_sycl_link]

/-- The environment never fails more than `k` waits in a row with `EINTR`. -/
def EintrBounded (env : Env) (k : Nat) : Prop :=
  ∀ t p, k ≤ eintrRun env t → env.waitpid t p ≠ .fail env.EINTR

/-- A sequence of `n` calls of `llamafile_has_sycl()`, one after the other:
the verdicts they return, first call first. -/
def has_sycl_calls (env : Env) (fuel : Nat) : Nat → State → Res (List Bool)
  | 0, s => .ret [] s
  | n + 1, s =>
    match llamafile_has_sycl env fuel s with
    | .ret v s =>
      match has_sycl_calls env fuel n s with
      | .ret vs s => .ret (v :: vs) s
      | .exited code s => .exited code s
      | .timeout => .timeout
    | .exited code s => .exited code s
    | .timeout => .timeout

/-- The value of one function-pointer member. -/
def Sycl.get (t : Sycl) (f : Field) : Nat :=
  match f with
  | .reg_devices => t.reg_devices
  | .link => t.link
  | .backend_init => t.backend_init
  | .buffer_type => t.buffer_type
  | .host_buffer_type => t.host_buffer_type
  | .split_buffer_type => t.split_buffer_type
  | .print_sycl_devices => t.print_sycl_devices
  | .get_gpu_list => t.get_gpu_list
  | .get_device_description => t.get_device_description
  | .get_device_count => t.get_device_count
  | .get_device_memory => t.get_device_memory
  | .get_device_index => t.get_device_index
  | .get_device_id => t.get_device_id
  | .set_single_device_mode => t.set_single_device_mode
  | .set_mul_device_mode => t.set_mul_device_mode

/-- The public functions `sycl.c` defines after `llamafile_has_sycl`, in
their order in the file. -/
inductive EntryPoint where
  | ggml_backend_sycl_reg_devices
  | ggml_backend_sycl_init
  | ggml_backend_sycl_buffer_type
  | ggml_backend_sycl_split_buffer_type
  | ggml_backend_sycl_host_buffer_type
  | ggml_backend_sycl_print_sycl_devices
  | ggml_sycl_get_gpu_list
  | ggml_sycl_get_device_description
  | ggml_backend_sycl_get_device_count
  | ggml_backend_sycl_get_device_memory
  | ggml_backend_sycl_get_device_index
  | ggml_backend_sycl_get_device_id
  | ggml_backend_sycl_set_single_device_mode
  | ggml_backend_sycl_set_mul_device_mode
  deriving DecidableEq, Repr

/-- All the forwarding entry points of `sycl.c`. -/
def forwarding_entry_points : List EntryPoint :=
  [ .ggml_backend_sycl_reg_devices, .ggml_backend_sycl_init, .ggml_backend_sycl_buffer_type,
    .ggml_backend_sycl_split_buffer_type, .ggml_backend_sycl_host_buffer_type,
    .ggml_backend_sycl_print_sycl_devices, .ggml_sycl_get_gpu_list,
    .ggml_sycl_get_device_description, .ggml_backend_sycl_get_device_count,
    .ggml_backend_sycl_get_device_memory, .ggml_backend_sycl_get_device_index,
    .ggml_backend_sycl_get_device_id, .ggml_backend_sycl_set_single_device_mode,
    .ggml_backend_sycl_set_mul_device_mode ]

/-- What a forwarding entry point gives back: a machine word (an `int` or a
handle, `0` for the null handle) or nothing. -/
inductive Value where
  | word (v : Int)
  | void
  deriving DecidableEq, Repr

/-- A call of a forwarding entry point: the entry point and its arguments
(pointers and sizes as machine words). -/
structure EntryCall where
  entry : EntryPoint
  args : List Int

/-- The member of `ggml_sycl` an entry point forwards to. -/
def EntryPoint.field : EntryPoint → Field
  | .ggml_backend_sycl_reg_devices => .reg_devices
  | .ggml_backend_sycl_init => .backend_init
  | .ggml_backend_sycl_buffer_type => .buffer_type
  | .ggml_backend_sycl_split_buffer_type => .split_buffer_type
  | .ggml_backend_sycl_host_buffer_type => .host_buffer_type
  | .ggml_backend_sycl_print_sycl_devices => .print_sycl_devices
  | .ggml_sycl_get_gpu_list => .get_gpu_list
  | .ggml_sycl_get_device_description => .get_device_description
  | .ggml_backend_sycl_get_device_count => .get_device_count
  | .ggml_backend_sycl_get_device_memory => .get_device_memory
  | .ggml_backend_sycl_get_device_index => .get_device_index
  | .ggml_backend_sycl_get_device_id => .get_device_id
  | .ggml_backend_sycl_set_single_device_mode => .set_single_device_mode
  | .ggml_backend_sycl_set_mul_device_mode => .set_mul_device_mode

/-- The number of parameters of an entry point. -/
def EntryPoint.arity : EntryPoint → Nat
  | .ggml_backend_sycl_reg_devices => 0
  | .ggml_backend_sycl_init => 1
  | .ggml_backend_sycl_buffer_type => 1
  | .ggml_backend_sycl_split_buffer_type => 1
  | .ggml_backend_sycl_host_buffer_type => 0
  | .ggml_backend_sycl_print_sycl_devices => 0
  | .ggml_sycl_get_gpu_list => 2
  | .ggml_sycl_get_device_description => 3
  | .ggml_backend_sycl_get_device_count => 0
  | .ggml_backend_sycl_get_device_memory => 3
  | .ggml_backend_sycl_get_device_index => 1
  | .ggml_backend_sycl_get_device_id => 1
  | .ggml_backend_sycl_set_single_device_mode => 1
  | .ggml_backend_sycl_set_mul_device_mode => 0

/-- Whether an entry point returns `void`. -/
def EntryPoint.isVoid : EntryPoint → Bool
  | .ggml_backend_sycl_print_sycl_devices => true
  | .ggml_sycl_get_gpu_list => true
  | .ggml_sycl_get_device_description => true
  | .ggml_backend_sycl_get_device_memory => true
  | .ggml_backend_sycl_set_single_device_mode => true
  | .ggml_backend_sycl_set_mul_device_mode => true
  | _ => false

/-- The result of an entry point that forwarded, from what the library gave. -/
def EntryPoint.result (e : EntryPoint) (r : Int) : Value :=
  if e.isVoid then .void else .word r

/-- The neutral value of an entry point: `0` or nothing. -/
def EntryPoint.neutral (e : EntryPoint) : Value :=
  e.result 0

/-- A `Res` with its value mapped. -/
def Res.map {α β : Type} (f : α → β) : Res α → Res β
  | .ret a s => .ret (f a) s
  | .exited code s => .exited code s
  | .timeout => .timeout

/-- Run a call of an entry point: the function of `sycl.c` of that name on
those arguments (`none` when the number of arguments is not that of the
function). -/
def EntryCall.run (c : EntryCall) (env : Env) (fuel : Nat) (s : State) : Option (Res Value) :=
  match c.entry, c.args with
  | .ggml_backend_sycl_reg_devices, [] =>
    some ((ggml_backend_sycl_reg_devices env fuel s).map .word)
  | .ggml_backend_sycl_init, [device] =>
    some ((ggml_backend_sycl_init env fuel device s).map .word)
  | .ggml_backend_sycl_buffer_type, [device] =>
    some ((ggml_backend_sycl_buffer_type env fuel device s).map .word)
  | .ggml_backend_sycl_split_buffer_type, [tensor_split] =>
    some ((ggml_backend_sycl_split_buffer_type env fuel tensor_split s).map .word)
  | .ggml_backend_sycl_host_buffer_type, [] =>
    some ((ggml_backend_sycl_host_buffer_type env fuel s).map .word)
  | .ggml_backend_sycl_print_sycl_devices, [] =>
    some ((ggml_backend_sycl_print_sycl_devices env fuel s).map (fun _ => .void))
  | .ggml_sycl_get_gpu_list, [id_list, max_len] =>
    some ((ggml_sycl_get_gpu_list env fuel id_list max_len s).map (fun _ => .void))
  | .ggml_sycl_get_device_description, [device, description, description_size] =>
    some ((ggml_sycl_get_device_description env fuel device description description_size
      s).map (fun _ => .void))
  | .ggml_backend_sycl_get_device_count, [] =>
    some ((ggml_backend_sycl_get_device_count env fuel s).map .word)
  | .ggml_backend_sycl_get_device_memory, [device, free, total] =>
    some ((ggml_backend_sycl_get_device_memory env fuel device free total s).map
      (fun _ => .void))
  | .ggml_backend_sycl_get_device_index, [device_id] =>
    some ((ggml_backend_sycl_get_device_index env fuel device_id s).map .word)
  | .ggml_backend_sycl_get_device_id, [device_index] =>
    some ((ggml_backend_sycl_get_device_id env fuel device_index s).map .word)
  | .ggml_backend_sycl_set_single_device_mode, [main_gpu_id] =>
    some ((ggml_backend_sycl_set_single_device_mode env fuel main_gpu_id s).map
      (fun _ => .void))
  | .ggml_backend_sycl_set_mul_device_mode, [] =>
    some ((ggml_backend_sycl_set_mul_device_mode env fuel s).map (fun _ => .void))
  | _, _ => none

/-- The tags of the calls `import_sycl_impl` makes up to its cache check. -/
def matTags : List Tag :=
  [.tinylog, .mkdir, .llamafile_is_file_newer_than, .llamafile_extract, .perror, .commandv,
   .getenv, .stat]

/-- The answers that make `sycl.c` give up: a `mkdir` that fails with
another error than `EEXIST`, a staleness check that errs, an extraction
that fails, no temporary file, a spawn error, a wait that fails with
another error than `EINTR` or gives a nonzero status, a rename that fails,
a library that does not open, a symbol that is missing, a probe that
finds no device. -/
def failed (env : Env) : Event → Bool
  | .mkdir _ _ rc errno => rc != 0 && errno != env.EEXIST
  | .llamafile_is_file_newer_than _ _ r => decide (r = .error)
  | .llamafile_extract _ _ ok => !ok
  | .mkostemp _ fd _ => decide (fd = -1)
  | .posix_spawnp _ err _ => err != 0
  | .waitpid _ (.fail e) => e != env.EINTR
  | .waitpid _ (.status ws) => ws != 0
  | .rename _ _ rc => rc != 0
  | .cosmo_dlopen _ lib => lib == 0
  | .cosmo_dlsym _ _ p => p == 0
  | .ggml_sycl_link _ _ r => !r
  | _ => false

/-- The tags of the events that can be failures. -/
def failTags : List Tag :=
  [.mkdir, .llamafile_is_file_newer_than, .llamafile_extract, .mkostemp, .posix_spawnp,
   .waitpid, .rename, .cosmo_dlopen, .cosmo_dlsym, .ggml_sycl_link]

/-! ## Concrete environments -/

/-- A Linux host in mode Auto where every call succeeds: `icpx` is on
`$PATH`, nothing in the archive is newer than its copy on disk, the
compiled library is up to date, it loads, it has every symbol and it finds
a device. -/
def envAuto : Env where
  PATH_MAX := 1024
  EINTR := 4
  EEXIST := 17
  IsWindows := false
  IsXnu := false
  IsLinux := true
  IsBsd := false
  IsOpenbsd := false
  FLAG_gpu := .AUTO
  FLAG_recompile := false
  FLAG_nocompile := false
  app_dir := "/home/u/.llamafile/"
  llamafile_has_metal := fun _ => false
  llamafile_describe_gpu := fun _ => "sycl"
  mkdir := fun _ _ _ => (0, 0)
  llamafile_is_file_newer_than := fun _ _ _ => .no
  llamafile_extract := fun _ _ _ => true
  commandv := fun _ _ _ => some "/usr/bin/icpx"
  getenv := fun _ _ => none
  stat := fun _ _ => some 0o100755
  mkostemp := fun _ t => (3, t)
  posix_spawnp := fun _ _ => (0, 42)
  waitpid := fun _ _ => .status 0
  rename := fun _ _ _ => 0
  cosmo_dlopen := fun _ _ => 7
  cosmo_dlerror := fun _ => none
  cosmo_dlsym := fun _ _ _ => 9
  ggml_backend_api := fun _ => 11
  ggml_sycl_link := fun _ _ _ => true
  invoke := fun _ _ _ => 5

/-- The final state of a call that returned (the initial state otherwise). -/
def final (r : Option (Bool × State)) : State :=
  match r with
  | some (_, s) => s
  | none => State.init

/-- A host where `icpx` is not on `$PATH`, `$CMPLR_ROOT` names a directory
without a compiler, and `/opt/intel/oneapi/compiler/latest/bin/icpx` is an
executable file. -/
def envRoot : Env :=
  { envAuto with
    commandv := fun _ _ _ => none
    getenv := fun _ name => if name = "CMPLR_ROOT" then some "/usr/local/intel" else none
    stat := fun _ path =>
      if path = "/opt/intel/oneapi/compiler/latest/bin/icpx" then some 0o100755 else none }

/-- The host of `envAuto` with a library that exports every required symbol
but `ggml_backend_sycl_get_device_id`. -/
def envMissing : Env :=
  { envAuto with
    cosmo_dlsym := fun _ _ sym => if sym = "ggml_backend_sycl_get_device_id" then 0 else 9 }

/-- The state a call leaves (the initial state when it did not return). -/
def final_state {α : Type} (r : Res α) : State :=
  match r with
  | .ret _ s => s
  | .exited _ s => s
  | .timeout => State.init

/-- A host where this backend is forced (`--gpu sycl`), no compiler is
found and the archive holds no prebuilt library, but a library built
earlier is on disk, up to date, and works. -/
def envCached : Env :=
  { envAuto with
    FLAG_gpu := .SYCL
    commandv := fun _ _ _ => none
    getenv := fun _ _ => none
    stat := fun _ _ => none }

/-- A host where this backend is forced (`--gpu sycl`), no compiler is
found and no library can be loaded. -/
def envBare : Env :=
  { envCached with cosmo_dlopen := fun _ _ => 0 }

/-- A host in mode Auto, compilation not disabled, where no compiler is
found, the compiled library is older than `ggml-sycl.cpp`, and the archive
holds the prebuilt `/zip/ggml-sycl.so`. -/
def envStale : Env :=
  { envAuto with
    commandv := fun _ _ _ => none
    getenv := fun _ _ => none
    stat := fun _ path => if path = "/zip/ggml-sycl.so" then some 0o100644 else none
    llamafile_is_file_newer_than := fun _ path _ =>
      if path = "/home/u/.llamafile/ggml-sycl.cpp" then .yes else .no }

theorem Step.refl (tags : List Tag) (s : State) : Step tags s s :=
  ⟨rfl, rfl, [], rfl, by simp⟩

theorem Step.logged {tags : List Tag} {s s' : State} {e : Event} (he : e.tag ∈ tags)
    (h : Step tags s s') : Step tags s (s'.log e) := by
  obtain ⟨h1, h2, evs, h3, h4⟩ := h
  refine ⟨h1, h2, e :: evs, by simp [State.log, h3], ?_⟩
  intro x hx
  rcases List.mem_cons.1 hx with rfl | hx
  · exact he
  · exact h4 x hx

theorem Step.trans {tags : List Tag} {s s' s'' : State} (h : Step tags s s')
    (h' : Step tags s' s'') : Step tags s s'' := by
  obtain ⟨h1, h2, evs, h3, h4⟩ := h
  obtain ⟨k1, k2, evs', k3, k4⟩ := h'
  refine ⟨k1.trans h1, k2.trans h2, evs' ++ evs, by simp [k3, h3], ?_⟩
  intro x hx
  rcases List.mem_append.1 hx with hx | hx
  · exact k4 x hx
  · exact h4 x hx

theorem Step.mono {tags tags' : List Tag} {s s' : State} (hsub : ∀ t ∈ tags, t ∈ tags')
    (h : Step tags s s') : Step tags' s s' := by
  obtain ⟨h1, h2, evs, h3, h4⟩ := h
  exact ⟨h1, h2, evs, h3, fun e he => hsub _ (h4 e he)⟩

theorem added_eq {s s' : State} {evs : List Event} (h : s'.trace = evs ++ s.trace) :
    added s s' = evs := by
  simp [added, h]

theorem Step.trace_eq {tags : List Tag} {s s' : State} (h : Step tags s s') :
    s'.trace = added s s' ++ s.trace := by
  obtain ⟨_, _, evs, h3, _⟩ := h
  rw [added_eq h3, h3]

theorem Step.tag_mem {tags : List Tag} {s s' : State} (h : Step tags s s') :
    ∀ e ∈ added s s', e.tag ∈ tags := by
  obtain ⟨_, _, evs, h3, h4⟩ := h
  rw [added_eq h3]; exact h4

theorem added_trans {tags tags' : List Tag} {s s' s'' : State} (h : Step tags s s')
    (h' : Step tags' s' s'') : added s s'' = added s' s'' ++ added s s' := by
  have e1 := h.trace_eq
  have e2 := h'.trace_eq
  apply added_eq
  rw [e2, e1, List.append_assoc]

theorem added_self (s : State) : added s s = [] := by simp [added]

theorem added_log {tags : List Tag} {s s' : State} (h : Step tags s s') (e : Event) :
    added s (s'.log e) = e :: added s s' := by
  apply added_eq
  simp [State.log]
  exact h.trace_eq

/-! ## What each function may do -/

theorem FileExists_step (env : Env) (path : String) (s : State) :
    Step [.stat] s (FileExists env path s).2 := by
  unfold FileExists
  exact Step.logged (by simp [Event.tag]) (Step.refl _ _)

theorem IsExecutable_step (env : Env) (path : String) (s : State) :
    Step [.stat] s (IsExecutable env path s).2 := by
  unfold IsExecutable
  dsimp only
  split <;> exact Step.logged (by simp [Event.tag]) (Step.refl _ _)

theorem Dlerror_step (env : Env) (s : State) :
    Step [.cosmo_dlerror] s (Dlerror env s).2 := by
  unfold Dlerror
  dsimp only
  split <;> exact Step.logged (by simp [Event.tag]) (Step.refl _ _)

theorem CreateTempPath_step (env : Env) (path : String) (s : State) :
    Step [.mkostemp, .close, .perror] s (CreateTempPath env path s).2 := by
  unfold CreateTempPath
  dsimp only
  split <;> repeat (first | exact Step.refl _ _ | apply Step.logged (by simp [Event.tag]))

theorem wait_loop_step (env : Env) (pid : Int) (fuel : Nat) (s : State)
    (r : Option Int × State) (h : wait_loop env pid fuel s = some r) :
    Step [.waitpid] s r.2 := by
  induction fuel generalizing s with
  | zero => simp [wait_loop] at h
  | succ n ih =>
    unfold wait_loop at h
    dsimp only at h
    split at h
    · cases h
      exact Step.logged (by simp [Event.tag]) (Step.refl _ _)
    · split at h
      · cases h
        exact Step.logged (by simp [Event.tag]) (Step.refl _ _)
      · exact Step.trans (Step.logged (by simp [Event.tag]) (Step.refl _ _)) (ih _ h)

theorem get_compiler_path_step (env : Env) (s : State) :
    Step [.commandv, .getenv, .stat, .tinylog] s (get_compiler_path env s).2 := by
  unfold get_compiler_path
  dsimp only
  repeat' split
  all_goals dsimp only
  all_goals
    repeat (first
      | exact Step.refl _ _
      | apply Step.logged (by simp [Event.tag])
      | refine Step.trans ?_ (Step.mono (by simp) (IsExecutable_step _ _ _)))

theorem Compile_step (env : Env) (fuel : Nat) (src tmp out : String) (args : List String)
    (s : State) (r : Bool × State) (h : Compile env fuel src tmp out args s = some r) :
    Step [.llamafile_log_command, .posix_spawnp, .waitpid, .rename, .unlink, .perror,
      .tinylog] s r.2 := by
  unfold Compile at h
  dsimp only at h
  split at h
  · cases h
    repeat (first | exact Step.refl _ _ | apply Step.logged (by simp [Event.tag]))
  · split at h
    · cases h
    · rename_i s1 hw
      have hs : Step [.llamafile_log_command, .posix_spawnp, .waitpid, .rename,
          .unlink, .perror, .tinylog] _ s1 :=
        Step.mono (by simp) (wait_loop_step _ _ _ _ _ hw)
      cases h
      apply Step.logged (by simp [Event.tag])
      apply Step.logged (by simp [Event.tag])
      refine Step.trans ?_ hs
      repeat (first | exact Step.refl _ _ | apply Step.logged (by simp [Event.tag]))
    · rename_i ws s1 hw
      have hs : Step [.llamafile_log_command, .posix_spawnp, .waitpid, .rename,
          .unlink, .perror, .tinylog] _ s1 :=
        Step.mono (by simp) (wait_loop_step _ _ _ _ _ hw)
      have hs' : Step [.llamafile_log_command, .posix_spawnp, .waitpid, .rename,
          .unlink, .perror, .tinylog] s s1 :=
        Step.trans (by
          repeat (first | exact Step.refl _ _ | apply Step.logged (by simp [Event.tag]))) hs
      repeat' split at h
      all_goals cases h
      all_goals repeat (first | exact hs' | apply Step.logged (by simp [Event.tag]))

theorem compile_sycl_step (env : Env) (fuel : Nat) (compiler dso src : String)
    (s : State) (r : Bool × State) (h : compile_sycl env fuel compiler dso src s = some r) :
    Step [.mkostemp, .close, .llamafile_log_command, .posix_spawnp, .waitpid, .rename,
      .unlink, .perror, .tinylog] s r.2 := by
  unfold compile_sycl at h
  have hc : Step [.mkostemp, .close, .llamafile_log_command, .posix_spawnp,
      .waitpid, .rename, .unlink, .perror, .tinylog] s (CreateTempPath env dso s).2 :=
    Step.mono (by simp) (CreateTempPath_step env dso s)
  split at h
  · rename_i s1 heq
    cases h
    rw [heq] at hc
    exact hc
  · rename_i tmpdso s1 heq
    rw [heq] at hc
    dsimp only at h
    split at h
    · cases h
    all_goals
      rename_i s2 hcomp
      cases h
      exact Step.trans (Step.logged (by simp [Event.tag]) hc)
        (Step.mono (by simp) (Compile_step _ _ _ _ _ _ _ _ hcomp))

theorem extract_sycl_dso_step (env : Env) (dso name : String) (s : State) :
    Step [.stat, .llamafile_extract, .tinylog] s (extract_sycl_dso env dso name s).2 := by
  unfold extract_sycl_dso
  have hf : Step [.stat, .llamafile_extract, .tinylog] s
      (FileExists env (prebuilt_zip env name) s).2 :=
    Step.mono (by simp) (FileExists_step env (prebuilt_zip env name) s)
  dsimp only
  split <;> exact Step.logged (by simp [Event.tag]) hf

theorem imp_step (env : Env) (lib : Nat) (sym : String) (s : State) :
    Step [.cosmo_dlsym, .tinylog] s (imp env lib sym s).2 := by
  unfold imp
  dsimp only
  split <;> repeat (first | exact Step.refl _ _ | apply Step.logged (by simp [Event.tag]))

theorem Sycl.supported_set (t : Sycl) (f : Field) (p : Nat) :
    (t.set f p).supported = t.supported := by
  cases f <;> rfl

theorem Sycl.once_set (t : Sycl) (f : Field) (p : Nat) : (t.set f p).once = t.once := by
  cases f <;> rfl

theorem Step.assigned {tags : List Tag} {s s' : State} (f : Field) (p : Nat)
    (h : Step tags s s') : Step tags s (s'.assign f p) := by
  obtain ⟨h1, h2, h3⟩ := h
  exact ⟨by simp [State.assign, Sycl.supported_set, h1],
    by simp [State.assign, Sycl.once_set, h2], h3⟩

theorem import_functions_step (env : Env) (lib : Nat) (l : List (Field × String))
    (ok : Bool) (s : State) :
    Step [.cosmo_dlsym, .tinylog] s (import_functions env lib l ok s).2 := by
  induction l generalizing ok s with
  | nil => exact Step.refl _ _
  | cons a rest ih =>
    obtain ⟨f, sym⟩ := a
    unfold import_functions
    exact Step.trans (Step.assigned f _ (imp_step env lib sym s)) (ih _ _)

theorem link_sycl_dso_step (env : Env) (dso : String) (s : State) :
    Step [.tinylog, .cosmo_dlopen, .cosmo_dlerror, .commandv, .cosmo_dlsym, .cosmo_dlclose,
      .ggml_backend_api, .ggml_sycl_link] s (link_sycl_dso env dso s).2 := by
  unfold link_sycl_dso
  dsimp only
  repeat' split
  all_goals dsimp only
  all_goals
    repeat (first
      | exact Step.refl _ _
      | apply Step.logged (by simp [Event.tag])
      | refine Step.trans ?_ (Step.mono (by simp) (Dlerror_step _ _))
      | refine Step.trans ?_ (Step.mono (by simp) (import_functions_step _ _ _ _ _)))

theorem extract_source_code_step (env : Env) (l : List Source) (i : Nat) (nr : Bool)
    (src : String) (s : State) :
    Step [.mkdir, .llamafile_is_file_newer_than, .llamafile_extract, .perror] s
      (extract_source_code env l i nr src s).2 := by
  induction l generalizing i nr src s with
  | nil => exact Step.refl _ _
  | cons a rest ih =>
    unfold extract_source_code
    dsimp only
    repeat' split
    all_goals dsimp only
    all_goals
      repeat (first
        | exact Step.refl _ _
        | apply Step.logged (by simp [Event.tag])
        | refine Step.trans ?_ (ih _ _ _ _))

/-! ## The wait loop and the compiler driver, exactly -/

theorem wait_loop_added (env : Env) (pid : Int) (fuel : Nat) (s : State)
    (r : Option Int) (s' : State) (h : wait_loop env pid fuel s = some (r, s')) :
    ∃ n res, added s s' = Event.waitpid pid res ::
        List.replicate n (Event.waitpid pid (.fail env.EINTR)) ∧
      res ≠ .fail env.EINTR ∧
      r = (match res with | .status ws => some ws | .fail _ => none) := by
  induction fuel generalizing s with
  | zero => simp [wait_loop] at h
  | succ k ih =>
    unfold wait_loop at h
    dsimp only at h
    split at h
    · rename_i ws hw
      cases h
      refine ⟨0, .status ws, ?_, by simp, rfl⟩
      rw [hw]
      exact added_eq (by simp [State.log])
    · rename_i errno hw
      split at h
      · rename_i hne
        cases h
        refine ⟨0, .fail errno, ?_, by simpa using hne, rfl⟩
        rw [hw]
        exact added_eq (by simp [State.log])
      · rename_i he
        have he' : errno = env.EINTR := by simpa using he
        obtain ⟨n, res, h1, h2, h3⟩ := ih _ h
        refine ⟨n + 1, res, ?_, h2, h3⟩
        have hs := wait_loop_step _ _ _ _ _ h
        have e1 := hs.trace_eq
        rw [h1] at e1
        apply added_eq
        rw [e1, hw, he']
        simp [State.log, List.replicate_succ']

theorem wait_loop_returns (env : Env) (pid : Int) (k : Nat)
    (hk : ∀ t p, k ≤ eintrRun env t → env.waitpid t p ≠ .fail env.EINTR)
    (fuel : Nat) (s : State) (h1 : 1 ≤ fuel) (h2 : k + 1 ≤ fuel + eintrRun env s.trace) :
    ∃ r, wait_loop env pid fuel s = some r := by
  induction fuel generalizing s with
  | zero => omega
  | succ n ih =>
    unfold wait_loop
    dsimp only
    split
    · exact ⟨_, rfl⟩
    · rename_i errno hw
      split
      · exact ⟨_, rfl⟩
      · rename_i he
        have he' : errno = env.EINTR := by simpa using he
        have hlt : eintrRun env s.trace < k := by
          by_contra hc
          exact hk s.trace pid (by omega) (by rw [hw, he'])
        apply ih
        · omega
        · rw [hw, he']
          simp [State.log, eintrRun]
          omega

theorem Compile_added (env : Env) (fuel : Nat) (src tmp out : String) (args : List String)
    (s : State) (b : Bool) (s' : State)
    (h : Compile env fuel src tmp out args s = some (b, s')) :
    ∃ err pid n front, added s s' = front ++
        List.replicate n (Event.waitpid pid (.fail env.EINTR)) ++
        [Event.posix_spawnp args err pid, Event.llamafile_log_command args] ∧
      ((err ≠ 0 ∧ n = 0 ∧ b = false ∧
          front = [Event.unlink tmp, Event.perror (args.headD "")]) ∨
       (err = 0 ∧ b = false ∧ ∃ e, e ≠ env.EINTR ∧
          front = [Event.unlink tmp, Event.perror (args.headD ""),
            Event.waitpid pid (.fail e)]) ∨
       (err = 0 ∧ b = false ∧ ∃ ws msg, ws ≠ 0 ∧
          front = [Event.unlink tmp, Event.tinylog msg, Event.waitpid pid (.status ws)]) ∨
       (err = 0 ∧ b = false ∧ ∃ rc, rc ≠ 0 ∧
          front = [Event.unlink tmp, Event.perror out, Event.rename tmp out rc,
            Event.waitpid pid (.status 0)]) ∨
       (err = 0 ∧ b = true ∧
          front = [Event.rename tmp out 0, Event.waitpid pid (.status 0)])) := by
  unfold Compile at h
  dsimp only at h
  generalize hsp : env.posix_spawnp (s.log (Event.llamafile_log_command args)).trace args = sp
    at h
  obtain ⟨err, pid⟩ := sp
  dsimp only at h
  split at h
  · rename_i herr
    cases h
    refine ⟨err, pid, 0, [Event.unlink tmp, Event.perror (args.headD "")], ?_,
      Or.inl ⟨herr, rfl, rfl, rfl⟩⟩
    exact added_eq (by simp [State.log])
  · rename_i herr
    have herr' : err = 0 := by simpa using herr
    split at h
    · cases h
    · rename_i s1 hw
      cases h
      obtain ⟨n, res, h1, h2, h3⟩ := wait_loop_added _ _ _ _ _ _ hw
      have e1 := (wait_loop_step _ _ _ _ _ hw).trace_eq
      rw [h1] at e1
      cases res with
      | status ws => simp at h3
      | fail e =>
        refine ⟨err, pid, n, [Event.unlink tmp, Event.perror (args.headD ""),
          Event.waitpid pid (.fail e)], ?_, Or.inr (Or.inl ⟨herr', rfl, e, ?_, rfl⟩)⟩
        · apply added_eq
          simp only [State.log] at e1 ⊢
          rw [e1]
          simp
        · intro hc
          exact h2 (by rw [hc])
    · rename_i ws s1 hw
      obtain ⟨n, res, h1, h2, h3⟩ := wait_loop_added _ _ _ _ _ _ hw
      have e1 := (wait_loop_step _ _ _ _ _ hw).trace_eq
      rw [h1] at e1
      cases res with
      | fail e => simp at h3
      | status ws' =>
        have hws : ws = ws' := by simpa using h3
        subst hws
        split at h
        · rename_i hne
          cases h
          refine ⟨err, pid, n, [Event.unlink tmp, Event.tinylog ("Compile: warning: " ++
            args.headD "" ++ " returned nonzero exit status\n"),
            Event.waitpid pid (.status ws)], ?_,
            Or.inr (Or.inr (Or.inl ⟨herr', rfl, ws, _, hne, rfl⟩))⟩
          apply added_eq
          simp only [State.log] at e1 ⊢
          rw [e1]
          simp
        · rename_i hz
          have hz' : ws = 0 := by simpa using hz
          subst hz'
          split at h
          · rename_i hrc
            cases h
            refine ⟨err, pid, n, [Event.unlink tmp, Event.perror out,
              Event.rename tmp out (env.rename s1.trace tmp out),
              Event.waitpid pid (.status 0)], ?_,
              Or.inr (Or.inr (Or.inr (Or.inl ⟨herr', rfl, _, hrc, rfl⟩)))⟩
            apply added_eq
            simp only [State.log] at e1 ⊢
            rw [e1]
            simp
          · rename_i hrc
            have hrc' : env.rename s1.trace tmp out = 0 := by simpa using hrc
            cases h
            refine ⟨err, pid, n, [Event.rename tmp out 0, Event.waitpid pid (.status 0)], ?_,
              Or.inr (Or.inr (Or.inr (Or.inr ⟨herr', rfl, rfl⟩)))⟩
            apply added_eq
            simp only [State.log] at e1 ⊢
            rw [hrc', e1]
            simp

theorem Compile_returns (env : Env) (k : Nat)
    (hk : ∀ t p, k ≤ eintrRun env t → env.waitpid t p ≠ .fail env.EINTR)
    (fuel : Nat) (hf : k < fuel) (src tmp out : String) (args : List String) (s : State) :
    ∃ r, Compile env fuel src tmp out args s = some r := by
  unfold Compile
  dsimp only
  split
  · exact ⟨_, rfl⟩
  · obtain ⟨r, hr⟩ := wait_loop_returns env
      (env.posix_spawnp (s.log (Event.llamafile_log_command args)).trace args).2 k hk fuel
      ((s.log (Event.llamafile_log_command args)).log
        (Event.posix_spawnp args
          (env.posix_spawnp (s.log (Event.llamafile_log_command args)).trace args).1
          (env.posix_spawnp (s.log (Event.llamafile_log_command args)).trace args).2))
      (by omega) (by omega)
    rw [hr]
    obtain ⟨r1, r2⟩ := r
    cases r1 with
    | none => exact ⟨_, rfl⟩
    | some ws =>
      dsimp only
      repeat' split
      all_goals exact ⟨_, rfl⟩

/-! ## The symbol binder, exactly -/

theorem imp_added (env : Env) (lib : Nat) (sym : String) (s : State) :
    (imp env lib sym s).1 = env.cosmo_dlsym s.trace lib sym ∧
    ∃ l, added s (imp env lib sym s).2 =
        l ++ [Event.cosmo_dlsym lib sym (env.cosmo_dlsym s.trace lib sym)] ∧
      ∀ e ∈ l, e.tag = .tinylog := by
  unfold imp
  dsimp only
  split
  · refine ⟨rfl, [_], added_eq (by simp [State.log]; rfl), ?_⟩
    simp [Event.tag]
  · exact ⟨rfl, [], added_eq (by simp [State.log]), by simp⟩

theorem import_functions_added (env : Env) (lib : Nat) (l : List (Field × String))
    (ok : Bool) (s : State) :
    (∀ e ∈ added s (import_functions env lib l ok s).2,
      e.tag = .tinylog ∨ ∃ sym p, e = Event.cosmo_dlsym lib sym p ∧ ∃ f, (f, sym) ∈ l) ∧
    (∀ fs ∈ l, ∃ p, Event.cosmo_dlsym lib fs.2 p ∈
      added s (import_functions env lib l ok s).2) ∧
    ((import_functions env lib l ok s).1 = true ↔
      ok = true ∧ ∀ sym, Event.cosmo_dlsym lib sym 0 ∉
        added s (import_functions env lib l ok s).2) ∧
    (∀ fs ∈ l, (∀ t, env.cosmo_dlsym t lib fs.2 = 0) →
      Event.cosmo_dlsym lib fs.2 0 ∈ added s (import_functions env lib l ok s).2) := by
  induction l generalizing ok s with
  | nil =>
    simp [import_functions, added_self]
  | cons a rest ih =>
    obtain ⟨f, sym⟩ := a
    unfold import_functions
    dsimp only
    obtain ⟨hv, pre, hpre, hlog⟩ := imp_added env lib sym s
    have hs1 : Step [.cosmo_dlsym, .tinylog] s
        ((imp env lib sym s).2.assign f (imp env lib sym s).1) :=
      Step.assigned f _ (imp_step env lib sym s)
    have hadd1 : added s ((imp env lib sym s).2.assign f (imp env lib sym s).1) =
        pre ++ [Event.cosmo_dlsym lib sym (env.cosmo_dlsym s.trace lib sym)] := hpre
    generalize (imp env lib sym s).2.assign f (imp env lib sym s).1 = s1 at hs1 hadd1 ⊢
    rw [hv]
    generalize hp : env.cosmo_dlsym s.trace lib sym = p at hadd1 ⊢
    obtain ⟨i1, i2, i3, i4⟩ := ih (ok && p != 0) s1
    have hadd := added_trans hs1 (import_functions_step env lib rest (ok && p != 0) s1)
    generalize import_functions env lib rest (ok && p != 0) s1 = r at i1 i2 i3 i4 hadd ⊢
    rw [hadd, hadd1]
    refine ⟨?_, ?_, ?_, ?_⟩
    · intro e he
      rcases List.mem_append.1 he with he | he
      · rcases i1 e he with h | ⟨sy, p, h1, f', h2⟩
        · exact Or.inl h
        · exact Or.inr ⟨sy, p, h1, f', List.mem_cons_of_mem _ h2⟩
      · rcases List.mem_append.1 he with he | he
        · exact Or.inl (hlog e he)
        · refine Or.inr ⟨sym, _, by simpa using he, f, List.mem_cons_self _ _⟩
    · intro fs hfs
      rcases List.mem_cons.1 hfs with rfl | hfs
      · exact ⟨p, by simp⟩
      · obtain ⟨p, hp⟩ := i2 fs hfs
        exact ⟨p, List.mem_append_left _ hp⟩
    · rw [i3]
      have hnl : ∀ sy, Event.cosmo_dlsym lib sy 0 ∉ pre := by
        intro sy hmem
        have := hlog _ hmem
        simp [Event.tag] at this
      constructor
      · rintro ⟨h1, h2⟩
        simp only [Bool.and_eq_true, bne_iff_ne, ne_eq] at h1
        refine ⟨h1.1, fun sy hmem => ?_⟩
        rcases List.mem_append.1 hmem with hm | hm
        · exact h2 sy hm
        · rcases List.mem_append.1 hm with hm | hm
          · exact hnl sy hm
          · simp at hm
            exact h1.2 hm.2.symm
      · rintro ⟨h1, h2⟩
        refine ⟨?_, fun sy hmem => h2 sy (List.mem_append_left _ hmem)⟩
        simp only [Bool.and_eq_true, bne_iff_ne, ne_eq]
        refine ⟨h1, fun h0 => h2 sym ?_⟩
        rw [h0]
        simp
    · intro fs hfs hz
      rcases List.mem_cons.1 hfs with rfl | hfs
      · have h0 : p = 0 := by rw [← hp]; exact hz s.trace
        simp [h0]
      · exact List.mem_append_left _ (i4 fs hfs hz)

theorem link_sycl_dso_added (env : Env) (dso : String) (s : State) :
    ∃ lib front I m0,
      added s (link_sycl_dso env dso s).2 =
        front ++ I ++ [Event.cosmo_dlopen dso lib, Event.tinylog m0] ∧
      (∀ e ∈ I, e.tag = .tinylog ∨
        ∃ sym p, e = Event.cosmo_dlsym lib sym p ∧ ∃ f, (f, sym) ∈ imports) ∧
      LinkShape env lib (link_sycl_dso env dso s).1 front I := by
  unfold link_sycl_dso
  dsimp only
  generalize hm0 : "link_sycl_dso: note: dynamically linking " ++ dso ++ "\n" = m0
  generalize hlib : env.cosmo_dlopen (s.log (Event.tinylog m0)).trace dso = lib
  have hs0 : Step allTags s ((s.log (Event.tinylog m0)).log (Event.cosmo_dlopen dso lib)) :=
    Step.logged (by simp [Event.tag, allTags]) (Step.logged (by simp [Event.tag, allTags])
      (Step.refl _ _))
  have ha0 : added s ((s.log (Event.tinylog m0)).log (Event.cosmo_dlopen dso lib)) =
      [Event.cosmo_dlopen dso lib, Event.tinylog m0] := added_eq (by simp [State.log])
  generalize (s.log (Event.tinylog m0)).log (Event.cosmo_dlopen dso lib) = s0 at hs0 ha0 ⊢
  by_cases h0 : lib = 0
  · rw [if_pos h0]
    have hfr : ∀ x : Bool × State, Step [Tag.tinylog, Tag.commandv, Tag.cosmo_dlerror] s0 x.2 →
        x.1 = false →
        ∃ lib' front I m0',
          added s x.2 = front ++ I ++ [Event.cosmo_dlopen dso lib', Event.tinylog m0'] ∧
          (∀ e ∈ I, e.tag = .tinylog ∨
            ∃ sym p, e = Event.cosmo_dlsym lib' sym p ∧ ∃ f, (f, sym) ∈ imports) ∧
          LinkShape env lib' x.1 front I := by
      intro x hx hf
      refine ⟨lib, added s0 x.2, [], m0, ?_, by simp, Or.inl ⟨h0, rfl, hf, hx.tag_mem⟩⟩
      rw [added_trans hs0 hx, ha0]
      simp
    repeat' split
    all_goals
      apply hfr _ _ rfl
      dsimp only
      repeat (first
        | exact Step.refl _ _
        | apply Step.logged (by simp [Event.tag])
        | refine Step.trans ?_ (Step.mono (by simp) (Dlerror_step _ _)))
  · rw [if_neg h0]
    obtain ⟨i1, i2, i3, i4⟩ := import_functions_added env lib imports true s0
    have hsi : Step allTags s0 (import_functions env lib imports true s0).2 :=
      Step.mono (by simp [allTags]) (import_functions_step env lib imports true s0)
    generalize import_functions env lib imports true s0 = r at i1 i2 i3 i4 hsi ⊢
    have hsr : Step allTags s r.2 := Step.trans hs0 hsi
    have har : added s r.2 = added s0 r.2 ++ [Event.cosmo_dlopen dso lib, Event.tinylog m0] := by
      rw [added_trans hs0 hsi, ha0]
    by_cases hok : r.1 = true
    · have hnone := (i3.1 hok).2
      simp only [hok, Bool.not_true, Bool.false_eq_true, if_false]
      generalize hapi : env.ggml_backend_api r.2.trace = api
      generalize hfn : (r.2.log (Event.ggml_backend_api api)).ggml_sycl.link = fn
      generalize hup : env.ggml_sycl_link (r.2.log (Event.ggml_backend_api api)).trace fn api
        = up
      cases up with
      | true =>
        refine ⟨lib, [Event.tinylog "link_sycl_dso: GPU support loaded\n",
          Event.ggml_sycl_link fn api true, Event.ggml_backend_api api], added s0 r.2, m0, ?_, i1,
          Or.inr ⟨h0, i2, i4, Or.inr (Or.inl ⟨hnone, rfl, fn, api, _, rfl⟩)⟩⟩
        apply added_eq
        simp only [if_true, State.log]
        rw [hsr.trace_eq, har]
        simp
      | false =>
        refine ⟨lib, [Event.cosmo_dlclose lib,
          Event.tinylog "link_sycl_dso: No GPU devices found\n",
          Event.ggml_sycl_link fn api false, Event.ggml_backend_api api], added s0 r.2, m0, ?_, i1,
          Or.inr ⟨h0, i2, i4, Or.inr (Or.inr ⟨hnone, rfl, fn, api, _, rfl⟩)⟩⟩
        apply added_eq
        simp only [Bool.false_eq_true, if_false, State.log]
        rw [hsr.trace_eq, har]
        simp
    · have hsome : ∃ sym, Event.cosmo_dlsym lib sym 0 ∈ added s0 r.2 := by
        by_contra hc
        exact hok (i3.2 ⟨rfl, fun sym hm => hc ⟨sym, hm⟩⟩)
      have hok' : r.1 = false := by simpa using hok
      simp only [hok', Bool.not_false, if_true]
      refine ⟨lib, [Event.cosmo_dlclose lib,
          Event.tinylog "link_sycl_dso: error: not all sycl symbols could be imported\n"],
          added s0 r.2, m0, ?_, i1, Or.inr ⟨h0, i2, i4, Or.inl ⟨hsome, rfl, _, rfl⟩⟩⟩
      apply added_eq
      simp only [State.log]
      rw [hsr.trace_eq, har]
      simp

theorem calls_append (tag : Tag) (l l' : List Event) :
    calls tag (l ++ l') = calls tag l ++ calls tag l' := by
  simp [calls]

theorem calls_eq_nil {tag : Tag} {l : List Event} (h : ∀ e ∈ l, e.tag ≠ tag) :
    calls tag l = [] := by
  simp only [calls, List.filter_eq_nil_iff, decide_eq_true_eq]
  exact h

theorem Step.calls_nil {tags : List Tag} {s s' : State} (h : Step tags s s') {tag : Tag}
    (ht : tag ∉ tags) : calls tag (added s s') = [] :=
  calls_eq_nil (fun e he hc => ht (hc ▸ h.tag_mem e he))

theorem imports_calls_nil {lib : Nat} {I : List Event} {tag : Tag}
    (hI : ∀ e ∈ I, e.tag = .tinylog ∨
      ∃ sym p, e = Event.cosmo_dlsym lib sym p ∧ ∃ f, (f, sym) ∈ imports)
    (h1 : tag ≠ .tinylog) (h2 : tag ≠ .cosmo_dlsym) : calls tag I = [] := by
  apply calls_eq_nil
  intro e he hc
  rcases hI e he with h | ⟨sym, p, rfl, _⟩
  · exact h1 (hc ▸ h)
  · exact h2 (hc ▸ rfl)

/-! ## The orchestrator, step by step -/

theorem getLast?_cons_eq {α : Type} (a : α) (l : List α) :
    (a :: l).getLast? = some (match l.getLast? with | none => a | some b => b) := by
  cases l with
  | nil => rfl
  | cons b t =>
    rw [List.getLast?_cons_cons]
    cases h : (b :: t).getLast? with
    | none => simp at h
    | some c => rfl

theorem extract_source_code_some (env : Env) (l : List Source) (i : Nat) (nr : Bool)
    (src : String) (s : State) (nr' : Bool) (src' : String) (s' : State)
    (h : extract_source_code env l i nr src s = (some (nr', src'), s')) :
    (nr' = true ↔ nr = true ∨ ∃ zip dst ok, Event.llamafile_extract zip dst ok ∈ added s s') ∧
    src' = (match l.getLast? with
      | none => src
      | some a => strlcat (llamafile_get_app_dir env env.PATH_MAX) a.name env.PATH_MAX) := by
  induction l generalizing i nr src s with
  | nil =>
    simp only [extract_source_code, Prod.mk.injEq, Option.some.injEq] at h
    obtain ⟨⟨rfl, rfl⟩, rfl⟩ := h
    simp [added_self]
  | cons a rest ih =>
    have hstep := extract_source_code_step env (a :: rest) i nr src s
    rw [h] at hstep
    unfold extract_source_code at h
    dsimp only at h
    generalize hm : (if i = 0 then
        ((env.mkdir s.trace (llamafile_get_app_dir env env.PATH_MAX) 0o755).1 != 0 &&
          (env.mkdir s.trace (llamafile_get_app_dir env env.PATH_MAX) 0o755).2 != env.EEXIST,
          s.log (Event.mkdir (llamafile_get_app_dir env env.PATH_MAX) 0o755
            (env.mkdir s.trace (llamafile_get_app_dir env env.PATH_MAX) 0o755).1
            (env.mkdir s.trace (llamafile_get_app_dir env env.PATH_MAX) 0o755).2))
      else (false, s)) = m at h
    have hms : Step [.mkdir, .llamafile_is_file_newer_than, .llamafile_extract, .perror] s m.2 := by
      rw [← hm]
      split
      · exact Step.logged (by simp [Event.tag]) (Step.refl _ _)
      · exact Step.refl _ _
    have hmadd : ∀ zip dst ok, Event.llamafile_extract zip dst ok ∉ added s m.2 := by
      intro zip dst ok
      rw [← hm]
      split
      · rw [added_log (Step.refl [] s), added_self]
        simp
      · simp [added_self]
    rw [getLast?_cons_eq]
    generalize hP : strlcat (llamafile_get_app_dir env env.PATH_MAX) a.name env.PATH_MAX = P at h
    split at h
    · simp at h
    · generalize hn : env.llamafile_is_file_newer_than m.2.trace a.zip P = n at h
      cases n with
      | error => simp at h
      | no =>
        dsimp only at h
        have hs1 : Step [.mkdir, .llamafile_is_file_newer_than, .llamafile_extract, .perror] s
            (m.2.log (Event.llamafile_is_file_newer_than a.zip P Newer.no)) :=
          Step.logged (by simp [Event.tag]) hms
        obtain ⟨i1, i2⟩ := ih _ _ _ _ h
        have hs2 := extract_source_code_step env rest (i + 1) nr P
          (m.2.log (Event.llamafile_is_file_newer_than a.zip P Newer.no))
        rw [h] at hs2
        refine ⟨?_, ?_⟩
        · rw [i1, added_trans hs1 hs2, added_log hms]
          constructor
          · rintro (h1 | ⟨z, d, o, h1⟩)
            · exact Or.inl h1
            · exact Or.inr ⟨z, d, o, List.mem_append_left _ h1⟩
          · rintro (h1 | ⟨z, d, o, h1⟩)
            · exact Or.inl h1
            · rcases List.mem_append.1 h1 with h1 | h1
              · exact Or.inr ⟨z, d, o, h1⟩
              · simp at h1
                exact absurd h1 (hmadd z d o)
        · rw [i2]
          cases rest.getLast? with
          | none => exact hP.symm
          | some b => rfl
      | yes =>
        dsimp only at h
        generalize hok : env.llamafile_extract
          (m.2.log (Event.llamafile_is_file_newer_than a.zip P Newer.yes)).trace a.zip P = ok at h
        cases ok with
        | false => simp at h
        | true =>
          simp only [Bool.not_true, Bool.false_eq_true, if_false] at h
          have hs0 : Step [.mkdir, .llamafile_is_file_newer_than, .llamafile_extract, .perror] s
              (m.2.log (Event.llamafile_is_file_newer_than a.zip P Newer.yes)) :=
            Step.logged (by simp [Event.tag]) hms
          have hs1 : Step [.mkdir, .llamafile_is_file_newer_than, .llamafile_extract, .perror] s
              ((m.2.log (Event.llamafile_is_file_newer_than a.zip P Newer.yes)).log
                (Event.llamafile_extract a.zip P true)) :=
            Step.logged (by simp [Event.tag]) hs0
          obtain ⟨i1, i2⟩ := ih _ _ _ _ h
          have hs2 := extract_source_code_step env rest (i + 1) true P
            ((m.2.log (Event.llamafile_is_file_newer_than a.zip P Newer.yes)).log
                (Event.llamafile_extract a.zip P true))
          rw [h] at hs2
          refine ⟨?_, ?_⟩
          · have ht : nr' = true := i1.2 (Or.inl rfl)
            simp only [ht, true_iff]
            right
            refine ⟨a.zip, P, true, ?_⟩
            rw [added_trans hs1 hs2]
            apply List.mem_append_right
            rw [added_log hs0]
            exact List.mem_cons_self _ _
          · rw [i2]
            cases rest.getLast? with
            | none => exact hP.symm
            | some b => rfl

theorem link_sycl_dso_facts (env : Env) (dso : String) (s : State) :
    ((link_sycl_dso env dso s).1 = true ↔
      ∃ fn api, Event.ggml_sycl_link fn api true ∈ added s (link_sycl_dso env dso s).2) ∧
    ((link_sycl_dso env dso s).1 = true →
      (∀ fs ∈ imports, ∃ lib p, p ≠ 0 ∧
        Event.cosmo_dlsym lib fs.2 p ∈ added s (link_sycl_dso env dso s).2) ∧
      ∀ lib sym, Event.cosmo_dlsym lib sym 0 ∉ added s (link_sycl_dso env dso s).2) := by
  obtain ⟨lib, front, I, m0, hA, hI, hshape⟩ := link_sycl_dso_added env dso s
  rw [hA]
  generalize (link_sycl_dso env dso s).1 = b at hshape ⊢
  have hIp : ∀ fn api, Event.ggml_sycl_link fn api true ∉ I := by
    intro fn api hm
    rcases hI _ hm with h | ⟨_, _, h, _⟩
    · simp [Event.tag] at h
    · simp at h
  rcases hshape with ⟨h0, rfl, rfl, hfr⟩ | ⟨h0, hall, _, hcase⟩
  · simp only [Bool.false_eq_true, false_iff, false_imp_iff, and_true, not_exists]
    intro fn api hm
    simp only [List.append_nil, List.mem_append, List.mem_cons, List.mem_singleton,
      List.not_mem_nil, or_false] at hm
    rcases hm with hm | hm
    · have := hfr _ hm
      simp [Event.tag] at this
    · simp at hm
  · rcases hcase with ⟨hz, rfl, m, rfl⟩ | ⟨hz, rfl, fn, api, m, rfl⟩ | ⟨hz, rfl, fn, api, m, rfl⟩
    · simp only [Bool.false_eq_true, false_iff, false_imp_iff, and_true, not_exists]
      intro fn api hm
      simp only [List.mem_append, List.mem_cons, List.mem_singleton,
        List.not_mem_nil, or_false] at hm
      rcases hm with (hm | hm) | hm
      · simp at hm
      · exact hIp _ _ hm
      · simp at hm
    · refine ⟨⟨fun _ => ⟨fn, api, by simp⟩, fun _ => rfl⟩, fun _ => ⟨?_, ?_⟩⟩
      · intro fs hfs
        obtain ⟨p, hp⟩ := hall fs hfs
        refine ⟨lib, p, ?_, ?_⟩
        · rintro rfl
          exact hz _ hp
        · simp [hp]
      · intro lib' sym hm
        simp only [List.mem_append, List.mem_cons, List.mem_singleton,
          List.not_mem_nil, or_false] at hm
        rcases hm with (hm | hm) | hm
        · simp at hm
        · rcases hI _ hm with h | ⟨sy, p, h, _⟩
          · simp [Event.tag] at h
          · simp only [Event.cosmo_dlsym.injEq] at h
            obtain ⟨rfl, rfl, rfl⟩ := h
            exact hz _ hm
        · simp at hm
    · simp only [Bool.false_eq_true, false_iff, false_imp_iff, and_true, not_exists]
      intro fn' api' hm
      simp only [List.mem_append, List.mem_cons, List.mem_singleton,
        List.not_mem_nil, or_false] at hm
      rcases hm with (hm | hm) | hm
      · simp at hm
      · exact hIp _ _ hm
      · simp at hm

theorem compile_sycl_true (env : Env) (fuel : Nat) (compiler dso src : String)
    (s s1 : State) (h : compile_sycl env fuel compiler dso src s = some (true, s1)) :
    ∃ args pid, Event.posix_spawnp args 0 pid ∈ added s s1 := by
  have hstep := compile_sycl_step _ _ _ _ _ _ _ h
  unfold compile_sycl at h
  have hc := CreateTempPath_step env dso s
  split at h
  · cases h
  · rename_i tmpdso s0 heq
    rw [heq] at hc
    dsimp only at h hc
    split at h
    · cases h
    · rename_i s2 hcomp
      cases h
      obtain ⟨err, pid, n, front, hadd, hcase⟩ := Compile_added _ _ _ _ _ _ _ _ _ hcomp
      have herr : err = 0 := by
        rcases hcase with ⟨_, _, hb, _⟩ | ⟨_, hb, _⟩ | ⟨_, hb, _⟩ | ⟨_, hb, _⟩ | ⟨he, _, _⟩
        · cases hb
        · cases hb
        · cases hb
        · cases hb
        · exact he
      subst herr
      have hs0 : Step allTags s
          (s0.log (Event.tinylog "compile_sycl: note: building ggml-sycl...\n")) :=
        Step.logged (by simp [Event.tag, allTags]) (Step.mono (by simp [allTags]) hc)
      refine ⟨[compiler] ++ SYCL_FLAGS ++ ["-o", tmpdso, src] ++ SYCL_LIBS, pid, ?_⟩
      rw [added_trans hs0 (Compile_step _ _ _ _ _ _ _ _ hcomp), hadd]
      simp
    · cases h

theorem build_from_source_cases (env : Env) (fuel : Nat) (cp : Option String)
    (dso src : String) (s : State) (r : Bool × State)
    (h : build_from_source env fuel cp dso src s = some r) :
    (r.1 = false ∧ Step preTags s r.2) ∨
      ∃ s1, Step preTags s s1 ∧ r = link_sycl_dso env dso s1 ∧
        ∃ args pid, Event.posix_spawnp args 0 pid ∈ added s s1 := by
  unfold build_from_source at h
  split at h
  · cases h
    exact Or.inl ⟨rfl, Step.refl _ _⟩
  · rename_i compiler
    split at h
    · cases h
    · rename_i s1 hc
      cases h
      have hs1 : Step preTags s s1 :=
        Step.mono (by simp [preTags]) (compile_sycl_step _ _ _ _ _ _ _ hc)
      exact Or.inr ⟨s1, hs1, rfl, compile_sycl_true _ _ _ _ _ _ _ hc⟩
    · rename_i s1 hc
      cases h
      exact Or.inl ⟨rfl, Step.mono (by simp [preTags]) (compile_sycl_step _ _ _ _ _ _ _ hc)⟩

theorem load_sycl_cases (env : Env) (fuel : Nat) (nr : Bool) (src : String) (s : State)
    (r : Bool × State) (h : load_sycl env fuel nr src s = some r) :
    (r.1 = false ∧ Step preTags s r.2) ∨
      ∃ s1, Step preTags s s1 ∧ r = link_sycl_dso env (dso_path env) s1 := by
  unfold load_sycl at h
  have hcp : Step preTags s (get_compiler_path env s).2 :=
    Step.mono (by simp [preTags]) (get_compiler_path_step env s)
  have hbuild : ∀ s0 r, Step preTags s s0 →
      build_from_source env fuel (get_compiler_path env s).1 (dso_path env) src s0 = some r →
      (r.1 = false ∧ Step preTags s r.2) ∨
        ∃ s1, Step preTags s s1 ∧ r = link_sycl_dso env (dso_path env) s1 := by
    intro s0 r hs0 hb
    rcases build_from_source_cases _ _ _ _ _ _ _ hb with ⟨h1, h2⟩ | ⟨s1, h1, h2, _⟩
    · exact Or.inl ⟨h1, Step.trans hs0 h2⟩
    · exact Or.inr ⟨s1, Step.trans hs0 h1, h2⟩
  split at h
  rotate_left 2
  · cases h
    exact Or.inl ⟨rfl, Step.refl _ _⟩
  all_goals
    dsimp only at h
    split at h
    · have hfe : Step preTags s (FileExists env (dso_path env) (get_compiler_path env s).2).2 :=
        Step.trans hcp (Step.mono (by simp [preTags]) (FileExists_step _ _ _))
      split at h
      · cases h
        exact Or.inr ⟨_, hfe, rfl⟩
      · have hx : Step preTags s (extract_sycl_dso env (dso_path env) "ggml-sycl"
            (FileExists env (dso_path env) (get_compiler_path env s).2).2).2 :=
          Step.trans hfe (Step.mono (by simp [preTags]) (extract_sycl_dso_step _ _ _ _))
        split at h
        · cases h
          exact Or.inr ⟨_, hx, rfl⟩
        · cases h
          exact Or.inl ⟨rfl, hx⟩
    · split at h
      · have hl : Step preTags s ((get_compiler_path env s).2.log
            (Event.llamafile_is_file_newer_than src (dso_path env)
              (env.llamafile_is_file_newer_than (get_compiler_path env s).2.trace src
                (dso_path env)))) :=
          Step.logged (by simp [Event.tag, preTags]) hcp
        split at h
        · cases h
          exact Or.inl ⟨rfl, hl⟩
        · cases h
          exact Or.inr ⟨_, hl, rfl⟩
        · exact hbuild _ _ hl h
      · exact hbuild _ _ hcp h

theorem import_sycl_impl_cases (env : Env) (fuel : Nat) (s : State) (r : Bool × State)
    (h : import_sycl_impl env fuel s = some r) :
    (r.1 = false ∧ Step preTags s r.2) ∨
      ∃ s1, Step preTags s s1 ∧ r = link_sycl_dso env (dso_path env) s1 := by
  unfold import_sycl_impl at h
  split at h
  · cases h
    exact Or.inl ⟨rfl, Step.refl _ _⟩
  · split at h
    rotate_left 2
    · cases h
      exact Or.inl ⟨rfl, Step.refl _ _⟩
    all_goals
      dsimp only at h
      have hx := extract_source_code_step env srcs 0 env.FLAG_recompile ""
        (s.log (Event.tinylog "import_sycl_impl: initializing gpu module...\n"))
      have hl : Step preTags s
          (s.log (Event.tinylog "import_sycl_impl: initializing gpu module...\n")) :=
        Step.logged (by simp [Event.tag, preTags]) (Step.refl _ _)
      split at h
      · rename_i s1 heq
        rw [heq] at hx
        cases h
        exact Or.inl ⟨rfl, Step.trans hl (Step.mono (by simp [preTags]) hx)⟩
      · rename_i nr src s1 heq
        rw [heq] at hx
        have hs1 : Step preTags s s1 := Step.trans hl (Step.mono (by simp [preTags]) hx)
        rcases load_sycl_cases _ _ _ _ _ _ h with ⟨h1, h2⟩ | ⟨s2, h1, h2⟩
        · exact Or.inl ⟨h1, Step.trans hs1 h2⟩
        · exact Or.inr ⟨s2, Step.trans hs1 h1, h2⟩

theorem import_sycl_impl_step (env : Env) (fuel : Nat) (s : State) (r : Bool × State)
    (h : import_sycl_impl env fuel s = some r) : Step implTags s r.2 := by
  rcases import_sycl_impl_cases _ _ _ _ h with ⟨_, h2⟩ | ⟨s1, h1, rfl⟩
  · exact Step.mono (fun t ht => List.mem_append_left _ ht) h2
  · exact Step.trans (Step.mono (fun t ht => List.mem_append_left _ ht) h1)
      (Step.mono (by simp [implTags, preTags]) (link_sycl_dso_step _ _ _))

theorem import_sycl_impl_facts (env : Env) (fuel : Nat) (s : State) (b : Bool) (s' : State)
    (h : import_sycl_impl env fuel s = some (b, s')) :
    (b = true ↔ ∃ fn api, Event.ggml_sycl_link fn api true ∈ added s s') ∧
    (b = true →
      (∀ fs ∈ imports, ∃ lib p, p ≠ 0 ∧ Event.cosmo_dlsym lib fs.2 p ∈ added s s') ∧
      ∀ lib sym, Event.cosmo_dlsym lib sym 0 ∉ added s s') := by
  rcases import_sycl_impl_cases _ _ _ _ h with ⟨h1, h2⟩ | ⟨s1, h1, h2⟩
  · dsimp only at h1 h2
    subst h1
    simp only [Bool.false_eq_true, false_iff, false_imp_iff, and_true, not_exists]
    intro fn api hm
    have := h2.tag_mem _ hm
    simp [Event.tag, preTags] at this
  · have hl := link_sycl_dso_step env (dso_path env) s1
    obtain ⟨f1, f2⟩ := link_sycl_dso_facts env (dso_path env) s1
    rw [← h2] at hl f1 f2
    dsimp only at hl f1 f2
    have hpre : ∀ e ∈ added s s1, e.tag ∈ preTags := h1.tag_mem
    rw [added_trans h1 hl]
    constructor
    · rw [f1]
      constructor
      · rintro ⟨fn, api, hm⟩
        exact ⟨fn, api, List.mem_append_left _ hm⟩
      · rintro ⟨fn, api, hm⟩
        rcases List.mem_append.1 hm with hm | hm
        · exact ⟨fn, api, hm⟩
        · have := hpre _ hm
          simp [Event.tag, preTags] at this
    · intro hb
      obtain ⟨g1, g2⟩ := f2 hb
      refine ⟨fun fs hfs => ?_, fun lib sym hm => ?_⟩
      · obtain ⟨lib, p, hp, hmem⟩ := g1 fs hfs
        exact ⟨lib, p, hp, List.mem_append_left _ hmem⟩
      · rcases List.mem_append.1 hm with hm | hm
        · exact g2 lib sym hm
        · have := hpre _ hm
          simp [Event.tag, preTags] at this

/-! ## Termination of the orchestrator -/

theorem compile_sycl_returns (env : Env) (k fuel : Nat) (hk : EintrBounded env k)
    (hf : k < fuel) (compiler dso src : String) (s : State) :
    ∃ r, compile_sycl env fuel compiler dso src s = some r := by
  unfold compile_sycl
  split
  · exact ⟨_, rfl⟩
  · rename_i tmpdso s1 _
    dsimp only
    obtain ⟨r, hr⟩ := Compile_returns env k hk fuel hf src tmpdso dso
      ([compiler] ++ SYCL_FLAGS ++ ["-o", tmpdso, src] ++ SYCL_LIBS)
      (s1.log (Event.tinylog "compile_sycl: note: building ggml-sycl...\n"))
    rw [hr]
    obtain ⟨b, s2⟩ := r
    cases b <;> exact ⟨_, rfl⟩

theorem build_from_source_returns (env : Env) (k fuel : Nat) (cp : Option String)
    (hk : cp = none ∨ (EintrBounded env k ∧ k < fuel)) (dso src : String) (s : State) :
    ∃ r, build_from_source env fuel cp dso src s = some r := by
  unfold build_from_source
  cases cp with
  | none => exact ⟨_, rfl⟩
  | some compiler =>
    rcases hk with hk | ⟨hk, hf⟩
    · cases hk
    · dsimp only
      obtain ⟨r, hr⟩ := compile_sycl_returns env k fuel hk hf compiler dso src s
      rw [hr]
      obtain ⟨b, s2⟩ := r
      cases b <;> exact ⟨_, rfl⟩

theorem load_sycl_returns (env : Env) (k fuel : Nat)
    (hk : (∀ s, (get_compiler_path env s).1 = none) ∨ (EintrBounded env k ∧ k < fuel))
    (nr : Bool) (src : String) (s : State) :
    ∃ r, load_sycl env fuel nr src s = some r := by
  have hb : ∀ s0, ∃ r, build_from_source env fuel (get_compiler_path env s).1 (dso_path env)
      src s0 = some r := by
    intro s0
    apply build_from_source_returns env k
    rcases hk with hk | hk
    · exact Or.inl (hk s)
    · exact Or.inr hk
  unfold load_sycl
  split
  rotate_left 2
  · exact ⟨_, rfl⟩
  all_goals
    dsimp only
    repeat' split
    all_goals first | exact ⟨_, rfl⟩ | exact hb _

theorem import_sycl_impl_returns (env : Env) (k fuel : Nat)
    (hk : (∀ s, (get_compiler_path env s).1 = none) ∨ (EintrBounded env k ∧ k < fuel))
    (s : State) : ∃ r, import_sycl_impl env fuel s = some r := by
  unfold import_sycl_impl
  split
  · exact ⟨_, rfl⟩
  · split
    rotate_left 2
    · exact ⟨_, rfl⟩
    all_goals
      dsimp only
      split
      · exact ⟨_, rfl⟩
      · exact load_sycl_returns env k fuel hk _ _ _

/-! ## The once-gate, step by step -/

theorem has_sycl_done (env : Env) (fuel : Nat) (s : State) (h : s.ggml_sycl.once ≠ 0) :
    llamafile_has_sycl env fuel s = .ret s.ggml_sycl.supported s := by
  simp [llamafile_has_sycl, cosmo_once, h]

theorem has_sycl_first (env : Env) (fuel : Nat) (s : State) (h : s.ggml_sycl.once = 0) :
    llamafile_has_sycl env fuel s =
      if env.llamafile_has_metal s.trace = true then
        .ret s.ggml_sycl.supported
          (((s.set_once 1).log (Event.llamafile_has_metal true)).set_once 2)
      else
        match import_sycl_impl env fuel
            ((s.set_once 1).log (Event.llamafile_has_metal false)) with
        | none => .timeout
        | some (true, s2) => .ret true ((s2.set_supported true).set_once 2)
        | some (false, s2) =>
          if env.FLAG_gpu = .SYCL then
            .exited 1 (((s2.log (Event.llamafile_describe_gpu
              (env.llamafile_describe_gpu s2.trace))).log
              (Event.tinyprint 2 ("fatal error: support for --gpu " ++
                env.llamafile_describe_gpu s2.trace ++
                " was explicitly requested, but it wasn't available\n"))).log (Event.exit 1))
          else .ret s.ggml_sycl.supported (s2.set_once 2) := by
  simp only [llamafile_has_sycl, cosmo_once, h, if_true, import_sycl]
  have htr : (s.set_once 1).trace = s.trace := rfl
  rw [htr]
  cases hm : env.llamafile_has_metal s.trace with
  | true => rfl
  | false =>
    simp only [Bool.false_eq_true, if_false]
    cases hi : import_sycl_impl env fuel
        ((s.set_once 1).log (Event.llamafile_has_metal false)) with
    | none => rfl
    | some r =>
      obtain ⟨b, s2⟩ := r
      have hst := import_sycl_impl_step _ _ _ _ hi
      cases b with
      | true => rfl
      | false =>
        dsimp only
        by_cases hg : env.FLAG_gpu = .SYCL
        · simp only [hg, if_true]
        · simp only [hg, if_false]
          have : (s2.set_once 2).ggml_sycl.supported = s.ggml_sycl.supported := hst.1
          rw [this]

theorem has_sycl_calls_done (env : Env) (fuel : Nat) (n : Nat) (s : State)
    (h : s.ggml_sycl.once ≠ 0) :
    has_sycl_calls env fuel n s = .ret (List.replicate n s.ggml_sycl.supported) s := by
  induction n with
  | zero => rfl
  | succ n ih =>
    unfold has_sycl_calls
    rw [has_sycl_done env fuel s h]
    dsimp only
    rw [ih]
    rfl

theorem has_sycl_ret (env : Env) (fuel : Nat) (s : State) (v : Bool) (s' : State)
    (h0 : s.ggml_sycl.once = 0) (h : llamafile_has_sycl env fuel s = .ret v s') :
    s'.ggml_sycl.once = 2 ∧ v = s'.ggml_sycl.supported ∧
    ((s'.trace = Event.llamafile_has_metal true :: s.trace ∧
        s'.ggml_sycl.supported = s.ggml_sycl.supported) ∨
     (∃ b s2, import_sycl_impl env fuel
          ((s.set_once 1).log (Event.llamafile_has_metal false)) = some (b, s2) ∧
        s'.trace = s2.trace ∧ s'.ggml_sycl.supported = (b || s.ggml_sycl.supported) ∧
        (b = false → env.FLAG_gpu ≠ .SYCL))) := by
  rw [has_sycl_first env fuel s h0] at h
  split at h
  · cases h
    exact ⟨rfl, rfl, Or.inl ⟨rfl, rfl⟩⟩
  · split at h
    · cases h
    · rename_i s2 hi
      cases h
      exact ⟨rfl, rfl, Or.inr ⟨true, s2, hi, rfl, rfl, by simp⟩⟩
    · rename_i s2 hi
      have hst := import_sycl_impl_step _ _ _ _ hi
      split at h
      · cases h
      · rename_i hg
        cases h
        have hsup : (s2.set_once 2).ggml_sycl.supported = s.ggml_sycl.supported := hst.1
        exact ⟨rfl, hsup.symm, Or.inr ⟨false, s2, hi, rfl, by simpa using hsup, fun _ => hg⟩⟩

theorem has_sycl_init_facts (env : Env) (fuel : Nat) (v : Bool) (s' : State)
    (h : llamafile_has_sycl env fuel State.init = .ret v s') :
    v = s'.ggml_sycl.supported ∧
    (s'.ggml_sycl.supported = true ↔
      ∃ fn api, Event.ggml_sycl_link fn api true ∈ s'.trace) ∧
    (s'.ggml_sycl.supported = true →
      (∀ fs ∈ imports, ∃ lib p, p ≠ 0 ∧ Event.cosmo_dlsym lib fs.2 p ∈ s'.trace) ∧
      (∀ lib sym, Event.cosmo_dlsym lib sym 0 ∉ s'.trace)) := by
  obtain ⟨_, hv, hc⟩ := has_sycl_ret env fuel State.init v s' rfl h
  refine ⟨hv, ?_⟩
  rcases hc with ⟨ht, hs⟩ | ⟨b, s2, hi, ht, hs, _⟩
  · rw [hs, ht]
    simp [State.init]
  · obtain ⟨f1, f2⟩ := import_sycl_impl_facts _ _ _ _ _ hi
    have hst := import_sycl_impl_step _ _ _ _ hi
    have htr : s2.trace = added ((State.init.set_once 1).log (Event.llamafile_has_metal false))
        s2 ++ [Event.llamafile_has_metal false] := hst.trace_eq
    rw [hs, ht, htr]
    generalize added ((State.init.set_once 1).log (Event.llamafile_has_metal false)) s2 = A
      at f1 f2
    have hb : (b || State.init.ggml_sycl.supported) = b := by simp [State.init]
    rw [hb]
    constructor
    · constructor
      · intro hbt
        obtain ⟨fn, api, hm⟩ := f1.1 hbt
        exact ⟨fn, api, List.mem_append_left _ hm⟩
      · rintro ⟨fn, api, hm⟩
        rcases List.mem_append.1 hm with hm | hm
        · exact f1.2 ⟨fn, api, hm⟩
        · simp at hm
    · intro hbt
      obtain ⟨g1, g2⟩ := f2 hbt
      refine ⟨fun fs hfs => ?_, fun lib sym hm => ?_⟩
      · obtain ⟨lib, p, hp, hm⟩ := g1 fs hfs
        exact ⟨lib, p, hp, List.mem_append_left _ hm⟩
      · rcases List.mem_append.1 hm with hm | hm
        · exact g2 lib sym hm
        · simp at hm

/-! ## The cache check, exactly -/

theorem load_sycl_unfold (env : Env) (fuel : Nat) (nr : Bool) (src : String) (s : State)
    (hmode : env.FLAG_gpu = .AUTO ∨ env.FLAG_gpu = .SYCL) :
    load_sycl env fuel nr src s =
      if env.FLAG_nocompile = true then
        if (FileExists env (dso_path env) (get_compiler_path env s).2).1 = true then
          some (link_sycl_dso env (dso_path env)
            (FileExists env (dso_path env) (get_compiler_path env s).2).2)
        else if (extract_sycl_dso env (dso_path env) "ggml-sycl"
            (FileExists env (dso_path env) (get_compiler_path env s).2).2).1 = true then
          some (link_sycl_dso env (dso_path env)
            (extract_sycl_dso env (dso_path env) "ggml-sycl"
              (FileExists env (dso_path env) (get_compiler_path env s).2).2).2)
        else some (false, (extract_sycl_dso env (dso_path env) "ggml-sycl"
          (FileExists env (dso_path env) (get_compiler_path env s).2).2).2)
      else if (!nr && !env.FLAG_recompile) = true then
        match env.llamafile_is_file_newer_than (get_compiler_path env s).2.trace src
            (dso_path env) with
        | .error => some (false, (get_compiler_path env s).2.log
            (Event.llamafile_is_file_newer_than src (dso_path env) .error))
        | .no => some (link_sycl_dso env (dso_path env) ((get_compiler_path env s).2.log
            (Event.llamafile_is_file_newer_than src (dso_path env) .no)))
        | .yes => build_from_source env fuel (get_compiler_path env s).1 (dso_path env) src
            ((get_compiler_path env s).2.log
              (Event.llamafile_is_file_newer_than src (dso_path env) .yes))
      else build_from_source env fuel (get_compiler_path env s).1 (dso_path env) src
        (get_compiler_path env s).2 := by
  unfold load_sycl
  rcases hmode with h | h <;> rw [h] <;> dsimp only <;>
    cases env.llamafile_is_file_newer_than (get_compiler_path env s).2.trace src
      (dso_path env) <;> rfl

theorem import_sycl_impl_unfold (env : Env) (fuel : Nat) (s : State) (nr : Bool)
    (src : String) (s1 : State) (hbsd : env.IsOpenbsd = false)
    (hmode : env.FLAG_gpu = .AUTO ∨ env.FLAG_gpu = .SYCL)
    (hmat : extract_source_code env srcs 0 env.FLAG_recompile ""
      (s.log (Event.tinylog "import_sycl_impl: initializing gpu module...\n")) =
        (some (nr, src), s1)) :
    import_sycl_impl env fuel s = load_sycl env fuel nr src s1 ∧
    Step matTags s s1 ∧
    src = strlcat (llamafile_get_app_dir env env.PATH_MAX) "ggml-sycl.cpp" env.PATH_MAX ∧
    (nr = false ↔ env.FLAG_recompile = false ∧
      ∀ zip dst ok, Event.llamafile_extract zip dst ok ∉ added s s1) := by
  have hx := extract_source_code_step env srcs 0 env.FLAG_recompile ""
    (s.log (Event.tinylog "import_sycl_impl: initializing gpu module...\n"))
  rw [hmat] at hx
  have hl : Step matTags s
      (s.log (Event.tinylog "import_sycl_impl: initializing gpu module...\n")) :=
    Step.logged (by simp [Event.tag, matTags]) (Step.refl _ _)
  have hs1 : Step matTags s s1 := Step.trans hl (Step.mono (by simp [matTags]) hx)
  obtain ⟨e1, e2⟩ := extract_source_code_some _ _ _ _ _ _ _ _ _ hmat
  refine ⟨?_, hs1, e2, ?_⟩
  · unfold import_sycl_impl
    rcases hmode with h | h <;> simp only [hbsd, h, Bool.false_eq_true, if_false, hmat]
  · have hadd : added s s1 = added
        (s.log (Event.tinylog "import_sycl_impl: initializing gpu module...\n")) s1 ++
        [Event.tinylog "import_sycl_impl: initializing gpu module...\n"] := by
      rw [added_trans hl hx, added_log (Step.refl [] s), added_self]
    rw [hadd]
    constructor
    · intro hnr
      have hn : ¬ nr = true := by simp [hnr]
      rw [e1] at hn
      push_neg at hn
      refine ⟨by simpa using hn.1, fun zip dst ok hm => ?_⟩
      rcases List.mem_append.1 hm with hm | hm
      · exact hn.2 zip dst ok hm
      · simp at hm
    · rintro ⟨h1, h2⟩
      by_contra hc
      have hc' : nr = true := by simpa using hc
      rcases e1.1 hc' with h3 | ⟨zip, dst, ok, h3⟩
      · rw [h1] at h3
        cases h3
      · exact h2 zip dst ok (List.mem_append_left _ h3)

theorem matTags_sub_preTags : ∀ t ∈ matTags, t ∈ preTags := by
  simp [matTags, preTags]

theorem build_not_direct (env : Env) (fuel : Nat) (cp : Option String) (src : String)
    (s1 s0 : State) (b : Bool) (s' : State) (hs0 : Step matTags s1 s0)
    (h : build_from_source env fuel cp (dso_path env) src s0 = some (b, s')) :
    ¬ ((∃ lib, Event.cosmo_dlopen (dso_path env) lib ∈ added s1 s') ∧
      ∀ args err pid, Event.posix_spawnp args err pid ∉ added s1 s') := by
  rintro ⟨⟨lib, hopen⟩, hspawn⟩
  have hs0' : Step preTags s1 s0 := Step.mono matTags_sub_preTags hs0
  rcases build_from_source_cases _ _ _ _ _ _ _ h with ⟨_, h2⟩ | ⟨s2, h1, h2, args, pid, h3⟩
  · have := (Step.trans hs0' h2).tag_mem _ hopen
    simp [Event.tag, preTags] at this
  · have hl := link_sycl_dso_step env (dso_path env) s2
    rw [← h2] at hl
    apply hspawn args 0 pid
    rw [added_trans (Step.trans hs0' h1) hl]
    apply List.mem_append_right
    rw [added_trans hs0' h1]
    exact List.mem_append_left _ h3

theorem link_is_direct (env : Env) (s1 s0 : State) (b : Bool) (s' : State)
    (hs0 : Step matTags s1 s0) (h : link_sycl_dso env (dso_path env) s0 = (b, s')) :
    (∃ lib, Event.cosmo_dlopen (dso_path env) lib ∈ added s1 s') ∧
      ∀ args err pid, Event.posix_spawnp args err pid ∉ added s1 s' := by
  have hl := link_sycl_dso_step env (dso_path env) s0
  obtain ⟨lib, front, I, m0, hA, _, _⟩ := link_sycl_dso_added env (dso_path env) s0
  rw [h] at hl hA
  dsimp only at hl hA
  rw [added_trans hs0 hl]
  constructor
  · exact ⟨lib, List.mem_append_left _ (by rw [hA]; simp)⟩
  · intro args err pid hm
    rcases List.mem_append.1 hm with hm | hm
    · have := hl.tag_mem _ hm
      simp [Event.tag] at this
    · have := hs0.tag_mem _ hm
      simp [Event.tag, matTags] at this

theorem load_sycl_direct_iff (env : Env) (fuel : Nat) (nr : Bool) (src : String)
    (s1 : State) (b : Bool) (s' : State)
    (hmode : env.FLAG_gpu = .AUTO ∨ env.FLAG_gpu = .SYCL)
    (hnc : env.FLAG_nocompile = false)
    (h : load_sycl env fuel nr src s1 = some (b, s')) :
    ((∃ lib, Event.cosmo_dlopen (dso_path env) lib ∈ added s1 s') ∧
        ∀ args err pid, Event.posix_spawnp args err pid ∉ added s1 s') ↔
      (nr = false ∧ env.FLAG_recompile = false ∧
        env.llamafile_is_file_newer_than (get_compiler_path env s1).2.trace src
          (dso_path env) = .no) := by
  rw [load_sycl_unfold env fuel nr src s1 hmode] at h
  simp only [hnc, Bool.false_eq_true, if_false] at h
  have hcp : Step matTags s1 (get_compiler_path env s1).2 :=
    Step.mono (by simp [matTags]) (get_compiler_path_step env s1)
  by_cases hc : (!nr && !env.FLAG_recompile) = true
  · have hc' : nr = false ∧ env.FLAG_recompile = false := by simpa using hc
    simp only [hc, if_true] at h
    have hlog : ∀ n, Step matTags s1 ((get_compiler_path env s1).2.log
        (Event.llamafile_is_file_newer_than src (dso_path env) n)) :=
      fun n => Step.logged (by simp [Event.tag, matTags]) hcp
    cases hn : env.llamafile_is_file_newer_than (get_compiler_path env s1).2.trace src
        (dso_path env) with
    | error =>
      rw [hn] at h
      simp only [Option.some.injEq, Prod.mk.injEq] at h
      obtain ⟨_, rfl⟩ := h
      simp only [reduceCtorEq, and_false, iff_false]
      rintro ⟨⟨lib, hopen⟩, _⟩
      have := (hlog .error).tag_mem _ hopen
      simp [Event.tag, matTags] at this
    | no =>
      rw [hn] at h
      simp only [Option.some.injEq] at h
      simp only [hc'.1, hc'.2, and_self, iff_true]
      exact link_is_direct env s1 _ b s' (hlog .no) h
    | yes =>
      rw [hn] at h
      simp only [reduceCtorEq, and_false, iff_false]
      exact build_not_direct env fuel _ src s1 _ b s' (hlog .yes) h
  · simp only [hc, if_false] at h
    have hrhs : ¬ (nr = false ∧ env.FLAG_recompile = false) := by
      intro hh
      exact hc (by simp [hh.1, hh.2])
    constructor
    · intro hd
      exact absurd hd (build_not_direct env fuel _ src s1 _ b s' hcp h)
    · rintro ⟨h1, h2, _⟩
      exact absurd ⟨h1, h2⟩ hrhs

theorem load_sycl_step (env : Env) (fuel : Nat) (nr : Bool) (src : String) (s : State)
    (r : Bool × State) (h : load_sycl env fuel nr src s = some r) : Step implTags s r.2 := by
  rcases load_sycl_cases _ _ _ _ _ _ h with ⟨_, h2⟩ | ⟨s1, h1, rfl⟩
  · exact Step.mono (fun t ht => List.mem_append_left _ ht) h2
  · exact Step.trans (Step.mono (fun t ht => List.mem_append_left _ ht) h1)
      (Step.mono (by simp [implTags, preTags]) (link_sycl_dso_step _ _ _))

theorem failed_tag (env : Env) (e : Event) (h : failed env e = true) : e.tag ∈ failTags := by
  cases e <;> simp [failed] at h <;> simp [Event.tag, failTags]

theorem Step.no_failed {tags : List Tag} {s s' : State} (env : Env) (h : Step tags s s')
    (hd : ∀ t ∈ tags, t ∉ failTags) : ∀ e ∈ added s s', failed env e = false := by
  intro e he
  by_contra hc
  have hc' : failed env e = true := by simpa using hc
  exact hd _ (h.tag_mem e he) (failed_tag env e hc')

theorem no_failed_trans {tagsA tagsB : List Tag} {s s' s'' : State} (env : Env)
    (h : Step tagsA s s') (h' : Step tagsB s' s'')
    (c : ∀ e ∈ added s s', failed env e = false)
    (c' : ∀ e ∈ added s' s'', failed env e = false) :
    ∀ e ∈ added s s'', failed env e = false := by
  intro e he
  rw [added_trans h h'] at he
  rcases List.mem_append.1 he with he | he
  · exact c' e he
  · exact c e he

theorem no_failed_log {tags : List Tag} {s s' : State} (env : Env) (h : Step tags s s')
    (c : ∀ e ∈ added s s', failed env e = false) (x : Event) (hx : failed env x = false) :
    ∀ e ∈ added s (s'.log x), failed env e = false := by
  intro e he
  rw [added_log h] at he
  rcases List.mem_cons.1 he with rfl | he
  · exact hx
  · exact c e he

theorem extract_source_code_clean (env : Env) (l : List Source) (i : Nat) (nr : Bool)
    (src : String) (s : State) (r : Bool × String) (s' : State)
    (h : extract_source_code env l i nr src s = (some r, s')) :
    ∀ e ∈ added s s', failed env e = false := by
  induction l generalizing i nr src s with
  | nil =>
    simp only [extract_source_code, Prod.mk.injEq, Option.some.injEq] at h
    obtain ⟨_, rfl⟩ := h
    simp [added_self]
  | cons a rest ih =>
    unfold extract_source_code at h
    dsimp only at h
    generalize hm : (if i = 0 then
        ((env.mkdir s.trace (llamafile_get_app_dir env env.PATH_MAX) 0o755).1 != 0 &&
          (env.mkdir s.trace (llamafile_get_app_dir env env.PATH_MAX) 0o755).2 != env.EEXIST,
          s.log (Event.mkdir (llamafile_get_app_dir env env.PATH_MAX) 0o755
            (env.mkdir s.trace (llamafile_get_app_dir env env.PATH_MAX) 0o755).1
            (env.mkdir s.trace (llamafile_get_app_dir env env.PATH_MAX) 0o755).2))
      else (false, s)) = m at h
    generalize hP : strlcat (llamafile_get_app_dir env env.PATH_MAX) a.name env.PATH_MAX = P at h
    split at h
    · simp at h
    · rename_i hm1
      have hm1' : m.1 = false := by simpa using hm1
      have hms : Step allTags s m.2 := by
        rw [← hm]
        split
        · exact Step.logged (by simp [Event.tag, allTags]) (Step.refl _ _)
        · exact Step.refl _ _
      have hmc : ∀ e ∈ added s m.2, failed env e = false := by
        rw [← hm] at hm1' ⊢
        split at hm1' <;> rename_i hi
        · simp only [hi, if_true]
          rw [added_log (Step.refl [] s), added_self]
          intro e he
          simp only [List.mem_singleton] at he
          subst he
          simpa [failed] using hm1'
        · simp [hi, added_self]
      generalize hn : env.llamafile_is_file_newer_than m.2.trace a.zip P = n at h
      cases n with
      | error => simp at h
      | no =>
        dsimp only at h
        have hs1 : Step allTags s
            (m.2.log (Event.llamafile_is_file_newer_than a.zip P Newer.no)) :=
          Step.logged (by simp [Event.tag, allTags]) hms
        have hs2 := extract_source_code_step env rest (i + 1) nr P
          (m.2.log (Event.llamafile_is_file_newer_than a.zip P Newer.no))
        rw [h] at hs2
        exact no_failed_trans env hs1 hs2
          (no_failed_log env hms hmc _ (by simp [failed])) (ih _ _ _ _ h)
      | yes =>
        dsimp only at h
        generalize hok : env.llamafile_extract
          (m.2.log (Event.llamafile_is_file_newer_than a.zip P Newer.yes)).trace a.zip P = ok at h
        cases ok with
        | false => simp at h
        | true =>
          simp only [Bool.not_true, Bool.false_eq_true, if_false] at h
          have hs0 : Step allTags s
              (m.2.log (Event.llamafile_is_file_newer_than a.zip P Newer.yes)) :=
            Step.logged (by simp [Event.tag, allTags]) hms
          have hs1 : Step allTags s
              ((m.2.log (Event.llamafile_is_file_newer_than a.zip P Newer.yes)).log
                (Event.llamafile_extract a.zip P true)) :=
            Step.logged (by simp [Event.tag, allTags]) hs0
          have hs2 := extract_source_code_step env rest (i + 1) true P
            ((m.2.log (Event.llamafile_is_file_newer_than a.zip P Newer.yes)).log
                (Event.llamafile_extract a.zip P true))
          rw [h] at hs2
          exact no_failed_trans env hs1 hs2
            (no_failed_log env hs0 (no_failed_log env hms hmc _ (by simp [failed])) _
              (by simp [failed])) (ih _ _ _ _ h)

theorem link_sycl_dso_clean (env : Env) (dso : String) (s : State)
    (h : (link_sycl_dso env dso s).1 = true) :
    ∀ e ∈ added s (link_sycl_dso env dso s).2, failed env e = false := by
  obtain ⟨lib, front, I, m0, hA, hI, hshape⟩ := link_sycl_dso_added env dso s
  rw [hA]
  rw [h] at hshape
  rcases hshape with ⟨_, _, hb, _⟩ | ⟨h0, _, _, hcase⟩
  · cases hb
  · rcases hcase with ⟨_, hb, _⟩ | ⟨hz, _, fn, api, m, rfl⟩ | ⟨_, hb, _⟩
    · cases hb
    · intro e he
      simp only [List.mem_append, List.mem_cons, List.mem_singleton, List.not_mem_nil,
        or_false] at he
      rcases he with ((rfl | rfl | rfl) | he) | (rfl | rfl)
      · rfl
      · rfl
      · rfl
      · rcases hI e he with ht | ⟨sym, p, rfl, _⟩
        · by_contra hc
          have hc' : failed env e = true := by simpa using hc
          have := failed_tag env e hc'
          rw [ht] at this
          simp [failTags] at this
        · have hp : p ≠ 0 := by
            rintro rfl
            exact hz sym he
          simp [failed, hp]
      · simp [failed, h0]
      · rfl
    · cases hb

theorem CreateTempPath_clean (env : Env) (path : String) (s : State)
    (h : ∃ t, (CreateTempPath env path s).1 = some t) :
    ∀ e ∈ added s (CreateTempPath env path s).2, failed env e = false := by
  obtain ⟨t, h⟩ := h
  unfold CreateTempPath at h ⊢
  dsimp only at h ⊢
  split
  · rename_i hfd
    have hs : Step allTags s (s.log (Event.mkostemp
        (strlcat (strlcpy path env.PATH_MAX) ".XXXXXX" env.PATH_MAX)
        (env.mkostemp s.trace (strlcat (strlcpy path env.PATH_MAX) ".XXXXXX" env.PATH_MAX)).1
        (env.mkostemp s.trace (strlcat (strlcpy path env.PATH_MAX) ".XXXXXX"
          env.PATH_MAX)).2)) :=
      Step.logged (by simp [Event.tag, allTags]) (Step.refl _ _)
    apply no_failed_log env hs _ _ (by simp [failed])
    apply no_failed_log env (Step.refl allTags s) (by simp [added_self]) _
    simpa [failed] using hfd
  · rename_i hfd
    simp [hfd] at h

theorem compile_sycl_clean (env : Env) (fuel : Nat) (compiler dso src : String)
    (s s1 : State) (h : compile_sycl env fuel compiler dso src s = some (true, s1)) :
    (∀ e ∈ added s s1, failed env e = false) ∧
    ∃ a o, Event.rename a o 0 ∈ added s s1 := by
  unfold compile_sycl at h
  have hc := CreateTempPath_step env dso s
  split at h
  · cases h
  · rename_i tmpdso s0 heq
    have hcc : ∀ e ∈ added s s0, failed env e = false := by
      have h1 := CreateTempPath_clean env dso s
      rw [heq] at h1
      exact h1 ⟨_, rfl⟩
    rw [heq] at hc
    dsimp only at h hc
    split at h
    · cases h
    · rename_i s2 hcomp
      cases h
      obtain ⟨err, pid, n, front, hadd, hcase⟩ := Compile_added _ _ _ _ _ _ _ _ _ hcomp
      have hfront : err = 0 ∧ front = [Event.rename tmpdso dso 0,
          Event.waitpid pid (.status 0)] := by
        rcases hcase with ⟨_, _, hb, _⟩ | ⟨_, hb, _⟩ | ⟨_, hb, _⟩ | ⟨_, hb, _⟩ | ⟨he, _, hf⟩
        · cases hb
        · cases hb
        · cases hb
        · cases hb
        · exact ⟨he, hf⟩
      obtain ⟨rfl, rfl⟩ := hfront
      have hs0 : Step allTags s
          (s0.log (Event.tinylog "compile_sycl: note: building ggml-sycl...\n")) :=
        Step.logged (by simp [Event.tag, allTags]) (Step.mono (by simp [allTags]) hc)
      have hcs := Compile_step _ _ _ _ _ _ _ _ hcomp
      constructor
      · apply no_failed_trans env hs0 hcs
          (no_failed_log env hc hcc _ (by simp [failed]))
        rw [hadd]
        intro e he
        simp only [List.mem_append, List.mem_cons, List.mem_singleton, List.not_mem_nil,
          or_false, List.mem_replicate] at he
        rcases he with ((rfl | rfl) | ⟨_, rfl⟩) | (rfl | rfl) <;> simp [failed]
      · refine ⟨tmpdso, dso, ?_⟩
        rw [added_trans hs0 hcs, hadd]
        simp
    · cases h

theorem extract_sycl_dso_clean (env : Env) (dso name : String) (s : State)
    (h : (extract_sycl_dso env dso name s).1 = true) :
    ∀ e ∈ added s (extract_sycl_dso env dso name s).2, failed env e = false := by
  unfold extract_sycl_dso at h ⊢
  dsimp only at h ⊢
  have hf := FileExists_step env (prebuilt_zip env name) s
  split at h
  · simp at h
  · rename_i hne
    simp only [hne, if_false] at h ⊢
    exact no_failed_log env hf (hf.no_failed env (by simp [failTags])) _
      (by simp [failed, h])

theorem link_after_clean {tags : List Tag} (env : Env) (s1 s0 : State) (s' : State)
    (hs0 : Step tags s1 s0) (c : ∀ e ∈ added s1 s0, failed env e = false)
    (h : link_sycl_dso env (dso_path env) s0 = (true, s')) :
    ∀ e ∈ added s1 s', failed env e = false := by
  have hl := link_sycl_dso_step env (dso_path env) s0
  have hc := link_sycl_dso_clean env (dso_path env) s0 (by rw [h])
  rw [h] at hl hc
  exact no_failed_trans env hs0 hl c hc

theorem build_from_source_facts (env : Env) (fuel : Nat) (cp : Option String)
    (src : String) (s0 : State) (b : Bool) (s' : State)
    (h : build_from_source env fuel cp (dso_path env) src s0 = some (b, s')) :
    calls .llamafile_extract (added s0 s') = [] ∧
    (b = true → (∀ e ∈ added s0 s', failed env e = false) ∧ cp ≠ none) ∧
    ((∀ a o, Event.rename a o 0 ∉ added s0 s') →
      b = false ∧ calls .cosmo_dlopen (added s0 s') = []) := by
  unfold build_from_source at h
  split at h
  · cases h
    simp [added_self, calls]
  · rename_i compiler
    split at h
    · cases h
    · rename_i s1 hc
      have hcs := compile_sycl_step _ _ _ _ _ _ _ hc
      obtain ⟨hclean, a, o, hren⟩ := compile_sycl_clean _ _ _ _ _ _ _ hc
      have hl := link_sycl_dso_step env (dso_path env) s1
      simp only [Option.some.injEq] at h
      rw [h] at hl
      dsimp only at hl hcs
      refine ⟨?_, fun hb => ⟨?_, by simp⟩, fun hno => ?_⟩
      · rw [added_trans hcs hl, calls_append, hl.calls_nil (by simp), hcs.calls_nil (by simp)]
        rfl
      · subst hb
        exact link_after_clean env s0 s1 s' hcs hclean h
      · exfalso
        apply hno a o
        rw [added_trans hcs hl]
        exact List.mem_append_right _ hren
    · rename_i s1 hc
      have hcs := compile_sycl_step _ _ _ _ _ _ _ hc
      cases h
      dsimp only at hcs
      exact ⟨hcs.calls_nil (by simp), by simp, fun _ => ⟨rfl, hcs.calls_nil (by simp)⟩⟩

theorem build_from_source_step (env : Env) (fuel : Nat) (cp : Option String)
    (dso src : String) (s : State) (r : Bool × State)
    (h : build_from_source env fuel cp dso src s = some r) : Step implTags s r.2 := by
  rcases build_from_source_cases _ _ _ _ _ _ _ h with ⟨_, h2⟩ | ⟨s1, h1, rfl, _⟩
  · exact Step.mono (fun t ht => List.mem_append_left _ ht) h2
  · exact Step.trans (Step.mono (fun t ht => List.mem_append_left _ ht) h1)
      (Step.mono (by simp [implTags, preTags]) (link_sycl_dso_step _ _ _))

theorem load_sycl_compile_facts (env : Env) (fuel : Nat) (nr : Bool) (src : String)
    (s1 : State) (b : Bool) (s' : State)
    (hmode : env.FLAG_gpu = .AUTO ∨ env.FLAG_gpu = .SYCL)
    (hnc : env.FLAG_nocompile = false)
    (h : load_sycl env fuel nr src s1 = some (b, s')) :
    calls .llamafile_extract (added s1 s') = [] ∧
    (b = true → (∀ e ∈ added s1 s', failed env e = false) ∧
      ((get_compiler_path env s1).1 = none →
        nr = false ∧ env.FLAG_recompile = false ∧
        env.llamafile_is_file_newer_than (get_compiler_path env s1).2.trace src
          (dso_path env) = .no)) ∧
    (¬ (nr = false ∧ env.FLAG_recompile = false ∧
        env.llamafile_is_file_newer_than (get_compiler_path env s1).2.trace src
          (dso_path env) = .no) →
      (∀ a o, Event.rename a o 0 ∉ added s1 s') →
      b = false ∧ calls .cosmo_dlopen (added s1 s') = []) := by
  rw [load_sycl_unfold env fuel nr src s1 hmode] at h
  simp only [hnc, Bool.false_eq_true, if_false] at h
  have hcp : Step [.commandv, .getenv, .stat, .tinylog, .llamafile_is_file_newer_than] s1
      (get_compiler_path env s1).2 := Step.mono (by simp) (get_compiler_path_step env s1)
  have hcpc : ∀ e ∈ added s1 (get_compiler_path env s1).2, failed env e = false :=
    Step.no_failed env (get_compiler_path_step env s1) (by simp [failTags])
  have hbuild : ∀ s0, Step [.commandv, .getenv, .stat, .tinylog,
      .llamafile_is_file_newer_than] s1 s0 →
      (∀ e ∈ added s1 s0, failed env e = false) →
      build_from_source env fuel (get_compiler_path env s1).1 (dso_path env) src s0 =
        some (b, s') →
      calls .llamafile_extract (added s1 s') = [] ∧
      (b = true → (∀ e ∈ added s1 s', failed env e = false) ∧
        (get_compiler_path env s1).1 ≠ none) ∧
      ((∀ a o, Event.rename a o 0 ∉ added s1 s') →
        b = false ∧ calls .cosmo_dlopen (added s1 s') = []) := by
    intro s0 hs0 hc0 hb
    obtain ⟨b1, b2, b3⟩ := build_from_source_facts env fuel _ src s0 b s' hb
    have hbs := build_from_source_step _ _ _ _ _ _ _ hb
    dsimp only at hbs
    have hadd := added_trans hs0 hbs
    refine ⟨?_, fun hb1 => ⟨no_failed_trans env hs0 hbs hc0 (b2 hb1).1, (b2 hb1).2⟩,
      fun hno => ?_⟩
    · rw [hadd, calls_append, b1, hs0.calls_nil (by simp)]
      rfl
    · have h3 := b3 (fun a o hm => hno a o (by rw [hadd]; exact List.mem_append_left _ hm))
      refine ⟨h3.1, ?_⟩
      rw [hadd, calls_append, h3.2, hs0.calls_nil (by simp)]
      rfl
  by_cases hc : (!nr && !env.FLAG_recompile) = true
  · have hc' : nr = false ∧ env.FLAG_recompile = false := by simpa using hc
    simp only [hc, if_true] at h
    have hlog : ∀ n, Step [.commandv, .getenv, .stat, .tinylog,
        .llamafile_is_file_newer_than] s1 ((get_compiler_path env s1).2.log
        (Event.llamafile_is_file_newer_than src (dso_path env) n)) :=
      fun n => Step.logged (by simp [Event.tag]) hcp
    cases hn : env.llamafile_is_file_newer_than (get_compiler_path env s1).2.trace src
        (dso_path env) with
    | error =>
      rw [hn] at h
      simp only [Option.some.injEq, Prod.mk.injEq] at h
      obtain ⟨rfl, rfl⟩ := h
      exact ⟨(hlog .error).calls_nil (by simp), by simp,
        fun _ _ => ⟨rfl, (hlog .error).calls_nil (by simp)⟩⟩
    | no =>
      rw [hn] at h
      simp only [Option.some.injEq] at h
      have hl := link_sycl_dso_step env (dso_path env) ((get_compiler_path env s1).2.log
        (Event.llamafile_is_file_newer_than src (dso_path env) .no))
      rw [h] at hl
      dsimp only at hl
      refine ⟨?_, fun hb => ⟨?_, fun _ => ⟨hc'.1, hc'.2, rfl⟩⟩,
        fun hneg => absurd ⟨hc'.1, hc'.2, rfl⟩ hneg⟩
      · rw [added_trans (hlog .no) hl, calls_append, hl.calls_nil (by simp),
          (hlog .no).calls_nil (by simp)]
        rfl
      · subst hb
        exact link_after_clean env s1 _ s' (hlog .no)
          (no_failed_log env hcp hcpc _ (by simp [failed])) h
    | yes =>
      rw [hn] at h
      obtain ⟨c1, c2, c3⟩ := hbuild _ (hlog .yes)
        (no_failed_log env hcp hcpc _ (by simp [failed])) h
      exact ⟨c1, fun hb => ⟨(c2 hb).1, fun hnone => absurd hnone (c2 hb).2⟩, fun _ => c3⟩
  · simp only [hc, if_false] at h
    obtain ⟨c1, c2, c3⟩ := hbuild _ hcp hcpc h
    exact ⟨c1, fun hb => ⟨(c2 hb).1, fun hnone => absurd hnone (c2 hb).2⟩, fun _ => c3⟩

theorem load_sycl_nocompile_clean (env : Env) (fuel : Nat) (nr : Bool) (src : String)
    (s1 : State) (s' : State)
    (hmode : env.FLAG_gpu = .AUTO ∨ env.FLAG_gpu = .SYCL)
    (hnc : env.FLAG_nocompile = true)
    (h : load_sycl env fuel nr src s1 = some (true, s')) :
    ∀ e ∈ added s1 s', failed env e = false := by
  rw [load_sycl_unfold env fuel nr src s1 hmode] at h
  simp only [hnc, if_true] at h
  have hcp := get_compiler_path_step env s1
  have hfs := FileExists_step env (dso_path env) (get_compiler_path env s1).2
  have hs2 : Step [.commandv, .getenv, .stat, .tinylog] s1
      (FileExists env (dso_path env) (get_compiler_path env s1).2).2 :=
    Step.trans hcp (Step.mono (by simp) hfs)
  have hc2 := Step.no_failed env hs2 (by simp [failTags])
  generalize FileExists env (dso_path env) (get_compiler_path env s1).2 = e at h hs2 hc2
  split at h
  · simp only [Option.some.injEq] at h
    exact link_after_clean env s1 e.2 s' hs2 hc2 h
  · split at h
    · rename_i hx
      simp only [Option.some.injEq] at h
      have hxs : Step allTags e.2 (extract_sycl_dso env (dso_path env) "ggml-sycl" e.2).2 :=
        Step.mono (by simp [allTags]) (extract_sycl_dso_step _ _ _ _)
      have hxc := extract_sycl_dso_clean env (dso_path env) "ggml-sycl" e.2 hx
      exact link_after_clean env s1 _ s' (Step.trans (Step.mono (by simp [allTags]) hs2) hxs)
        (no_failed_trans env hs2 hxs hc2 hxc) h
    · simp at h

theorem import_sycl_impl_true (env : Env) (fuel : Nat) (s s' : State)
    (h : import_sycl_impl env fuel s = some (true, s')) :
    env.IsOpenbsd = false ∧ (env.FLAG_gpu = .AUTO ∨ env.FLAG_gpu = .SYCL) ∧
    ∃ nr src s1, extract_source_code env srcs 0 env.FLAG_recompile ""
        (s.log (Event.tinylog "import_sycl_impl: initializing gpu module...\n")) =
          (some (nr, src), s1) ∧
      load_sycl env fuel nr src s1 = some (true, s') := by
  unfold import_sycl_impl at h
  split at h
  · simp at h
  · rename_i hbsd
    have hbsd' : env.IsOpenbsd = false := by simpa using hbsd
    split at h
    rotate_left 2
    · simp at h
    · rename_i hg
      dsimp only at h
      split at h
      · simp at h
      · rename_i nr src s1 heq
        exact ⟨hbsd', Or.inl hg, nr, src, s1, heq, h⟩
    · rename_i hg
      dsimp only at h
      split at h
      · simp at h
      · rename_i nr src s1 heq
        exact ⟨hbsd', Or.inr hg, nr, src, s1, heq, h⟩

theorem import_sycl_impl_clean (env : Env) (fuel : Nat) (s s' : State)
    (h : import_sycl_impl env fuel s = some (true, s')) :
    (∀ e ∈ added s s', failed env e = false) ∧
    (env.FLAG_nocompile = false → (∀ s0, (get_compiler_path env s0).1 = none) →
      env.FLAG_recompile = false ∧ calls .llamafile_extract (added s s') = [] ∧
      ∃ t, env.llamafile_is_file_newer_than t
        (strlcat (llamafile_get_app_dir env env.PATH_MAX) "ggml-sycl.cpp" env.PATH_MAX)
        (dso_path env) = .no) := by
  obtain ⟨hbsd, hmode, nr, src, s1, hmat, hload⟩ := import_sycl_impl_true env fuel s s' h
  obtain ⟨_, hs1, hsrc, hnr⟩ := import_sycl_impl_unfold env fuel s nr src s1 hbsd hmode hmat
  have hl : Step allTags s
      (s.log (Event.tinylog "import_sycl_impl: initializing gpu module...\n")) :=
    Step.logged (by simp [Event.tag, allTags]) (Step.refl _ _)
  have hx := extract_source_code_step env srcs 0 env.FLAG_recompile ""
    (s.log (Event.tinylog "import_sycl_impl: initializing gpu module...\n"))
  have hxc := extract_source_code_clean env srcs 0 env.FLAG_recompile ""
    (s.log (Event.tinylog "import_sycl_impl: initializing gpu module...\n")) (nr, src) s1 hmat
  rw [hmat] at hx
  dsimp only at hx
  have hc1 : ∀ e ∈ added s s1, failed env e = false :=
    no_failed_trans env hl hx
      (no_failed_log env (Step.refl allTags s) (by simp [added_self]) _ (by simp [failed])) hxc
  have hst := load_sycl_step _ _ _ _ _ _ hload
  dsimp only at hst
  constructor
  · apply no_failed_trans env hs1 hst hc1
    cases hnc : env.FLAG_nocompile with
    | true => exact load_sycl_nocompile_clean env fuel nr src s1 s' hmode hnc hload
    | false => exact ((load_sycl_compile_facts env fuel nr src s1 true s' hmode hnc hload).2.1
        rfl).1
  · intro hnc hcc
    obtain ⟨f1, f2, _⟩ := load_sycl_compile_facts env fuel nr src s1 true s' hmode hnc hload
    obtain ⟨g1, g2, g3⟩ := (f2 rfl).2 (hcc s1)
    obtain ⟨k1, k2⟩ := hnr.1 g1
    refine ⟨g2, ?_, _, hsrc ▸ g3⟩
    rw [added_trans hs1 hst, calls_append, f1]
    apply calls_eq_nil
    intro e he hc
    cases e <;> simp [Event.tag] at hc
    exact k2 _ _ _ he

theorem has_sycl_init_clean (env : Env) (fuel : Nat) (s' : State)
    (h : llamafile_has_sycl env fuel State.init = .ret true s') :
    (∀ e ∈ s'.trace, failed env e = false) ∧
    (env.FLAG_nocompile = false → (∀ s0, (get_compiler_path env s0).1 = none) →
      env.FLAG_recompile = false ∧ calls .llamafile_extract s'.trace = [] ∧
      ∃ t, env.llamafile_is_file_newer_than t
        (strlcat (llamafile_get_app_dir env env.PATH_MAX) "ggml-sycl.cpp" env.PATH_MAX)
        (dso_path env) = .no) := by
  obtain ⟨_, hv, hc⟩ := has_sycl_ret env fuel State.init true s' rfl h
  rcases hc with ⟨_, hs⟩ | ⟨b, s2, hi, ht, hs, _⟩
  · rw [← hv] at hs
    simp [State.init] at hs
  · have hb : b = true := by
      rw [← hv] at hs
      simpa [State.init] using hs.symm
    subst hb
    obtain ⟨c1, c2⟩ := import_sycl_impl_clean env fuel _ s2 hi
    have hst := import_sycl_impl_step _ _ _ _ hi
    have htr : s2.trace = added ((State.init.set_once 1).log (Event.llamafile_has_metal false))
        s2 ++ [Event.llamafile_has_metal false] := hst.trace_eq
    rw [ht, htr]
    constructor
    · intro e he
      rcases List.mem_append.1 he with he | he
      · exact c1 e he
      · simp only [List.mem_singleton] at he
        subst he
        rfl
    · intro hnc hcc
      obtain ⟨d1, d2, d3⟩ := c2 hnc hcc
      refine ⟨d1, ?_, d3⟩
      rw [calls_append, d2]
      rfl

/-! ## The claims -/

/-- C1, as the claim states it, fails on the count: `sycl.c` has fourteen
forwarding entry points (the fifteenth member of the table, `link`, has
none), not fifteen. -/
theorem forwarding_entry_points_count :
    forwarding_entry_points.length = 14 ∧ forwarding_entry_points.length ≠ 15 ∧
      forwarding_entry_points.Nodup ∧ ∀ e : EntryPoint, e ∈ forwarding_entry_points := by
  refine ⟨rfl, by decide, by decide, ?_⟩
  intro e
  cases e <;> decide

/-- C1, amended: each of the fourteen forwarding entry points, on every
argument tuple, does what `llamafile_has_sycl()` does and then: if that
returned false, returns its neutral value (`0`, the null handle, nothing)
and makes no call; if that returned true, calls the bound function of the
table once with the same arguments and returns its result unchanged. -/
theorem entry_points_forward (c : EntryCall) (env : Env) (fuel : Nat) (s : State)
    (harity : c.args.length = c.entry.arity) :
    (∀ s1, llamafile_has_sycl env fuel s = .ret false s1 →
      c.run env fuel s = some (.ret c.entry.neutral s1)) ∧
    (∀ s1, llamafile_has_sycl env fuel s = .ret true s1 →
      c.run env fuel s = some (.ret
        (c.entry.result (env.invoke s1.trace (s1.ggml_sycl.get c.entry.field) c.args))
        (s1.log (Event.invoke (s1.ggml_sycl.get c.entry.field) c.args
          (env.invoke s1.trace (s1.ggml_sycl.get c.entry.field) c.args))))) := by
  obtain ⟨e, args⟩ := c
  rcases args with _ | ⟨a, _ | ⟨b, _ | ⟨d, _ | ⟨x, rest⟩⟩⟩⟩ <;> cases e <;>
    simp [EntryPoint.arity] at harity
  all_goals
    simp only [EntryCall.run, ggml_backend_sycl_reg_devices, ggml_backend_sycl_init,
      ggml_backend_sycl_buffer_type, ggml_backend_sycl_split_buffer_type,
      ggml_backend_sycl_host_buffer_type, ggml_backend_sycl_print_sycl_devices,
      ggml_sycl_get_gpu_list, ggml_sycl_get_device_description,
      ggml_backend_sycl_get_device_count, ggml_backend_sycl_get_device_memory,
      ggml_backend_sycl_get_device_index, ggml_backend_sycl_get_device_id,
      ggml_backend_sycl_set_single_device_mode, ggml_backend_sycl_set_mul_device_mode]
    constructor <;> intro s1 h <;> rw [h] <;> rfl

theorem entry_points_forward_witness :
    EntryCall.run ⟨.ggml_backend_sycl_init, [0]⟩ envAuto 0 State.init =
      some (.ret (.word 5) ((final_state (llamafile_has_sycl envAuto 0 State.init)).log
        (Event.invoke 9 [0] 5))) :=
  (entry_points_forward ⟨.ggml_backend_sycl_init, [0]⟩ envAuto 0 State.init rfl).2 _ rfl

/-- C2: once the first `llamafile_has_sycl()` of a process has returned,
`ggml_sycl.supported` is the verdict it returned, and it is true if and
only if, in that run, every required symbol was looked up and came back
non-null, no lookup came back null, and the probe `ggml_sycl.link` returned
true. -/
theorem supported_iff_bound_and_probed (env : Env) (fuel : Nat) (v : Bool) (s' : State)
    (h : llamafile_has_sycl env fuel State.init = .ret v s') :
    v = s'.ggml_sycl.supported ∧
    (s'.ggml_sycl.supported = true ↔
      (∀ fs ∈ imports, ∃ lib p, p ≠ 0 ∧ Event.cosmo_dlsym lib fs.2 p ∈ s'.trace) ∧
      (∀ lib sym, Event.cosmo_dlsym lib sym 0 ∉ s'.trace) ∧
      ∃ fn api, Event.ggml_sycl_link fn api true ∈ s'.trace) := by
  obtain ⟨h1, h2, h3⟩ := has_sycl_init_facts env fuel v s' h
  refine ⟨h1, fun hs => ⟨(h3 hs).1, (h3 hs).2, h2.1 hs⟩, fun hr => h2.2 hr.2.2⟩

theorem supported_iff_bound_and_probed_witness :
    llamafile_has_sycl envAuto 0 State.init =
        .ret true (final_state (llamafile_has_sycl envAuto 0 State.init)) ∧
      (final_state (llamafile_has_sycl envAuto 0 State.init)).ggml_sycl.supported = true :=
  ⟨rfl, (supported_iff_bound_and_probed envAuto 0 true _ rfl).1.symm⟩

/-- C3: when `cosmo_dlopen` gave a handle, `link_sycl_dso` returning false
has called `cosmo_dlclose` exactly once, on that handle, and returning true
it has not called it; when an import came back null the probe
`ggml_sycl.link` was not called; a library that lacks one of the required
symbols gives false, is closed once and is not probed. -/
theorem link_sycl_dso_releases (env : Env) (dso : String) (s : State) (lib : Nat)
    (hlib : lib ≠ 0)
    (hopen : Event.cosmo_dlopen dso lib ∈ added s (link_sycl_dso env dso s).2) :
    ((link_sycl_dso env dso s).1 = false →
      calls .cosmo_dlclose (added s (link_sycl_dso env dso s).2) = [Event.cosmo_dlclose lib]) ∧
    ((link_sycl_dso env dso s).1 = true →
      calls .cosmo_dlclose (added s (link_sycl_dso env dso s).2) = []) ∧
    ((∃ sym, Event.cosmo_dlsym lib sym 0 ∈ added s (link_sycl_dso env dso s).2) →
      (link_sycl_dso env dso s).1 = false ∧
      calls .ggml_sycl_link (added s (link_sycl_dso env dso s).2) = []) ∧
    (∀ fs ∈ imports, (∀ t, env.cosmo_dlsym t lib fs.2 = 0) →
      (link_sycl_dso env dso s).1 = false ∧
      calls .cosmo_dlclose (added s (link_sycl_dso env dso s).2) = [Event.cosmo_dlclose lib] ∧
      calls .ggml_sycl_link (added s (link_sycl_dso env dso s).2) = []) := by
  obtain ⟨lib', front, I, m0, hA, hI, hshape⟩ := link_sycl_dso_added env dso s
  rw [hA] at hopen ⊢
  generalize (link_sycl_dso env dso s).1 = b at hshape ⊢
  have hIc : calls .cosmo_dlclose I = [] := imports_calls_nil hI (by simp) (by simp)
  have hIp : calls .ggml_sycl_link I = [] := imports_calls_nil hI (by simp) (by simp)
  have hIo : ∀ l, Event.cosmo_dlopen dso l ∉ I := by
    intro l hl
    rcases hI _ hl with h | ⟨_, _, h, _⟩
    · simp [Event.tag] at h
    · simp at h
  have hInull : ∀ sym, Event.cosmo_dlsym lib sym 0 ∈ front ++ I ++
      [Event.cosmo_dlopen dso lib', Event.tinylog m0] → (∀ e ∈ front, e.tag ≠ .cosmo_dlsym) →
      Event.cosmo_dlsym lib sym 0 ∈ I := by
    intro sym hm hfr
    simp only [List.mem_append, List.mem_cons, List.mem_singleton, List.not_mem_nil,
      or_false] at hm
    rcases hm with (hm | hm) | hm
    · exact absurd rfl (hfr _ hm)
    · exact hm
    · simp at hm
  rcases hshape with ⟨h0, _, _, hfr⟩ | ⟨h0, _, hmiss, hcase⟩
  · exfalso
    simp only [List.mem_append, List.mem_cons, List.mem_singleton, List.not_mem_nil,
      or_false] at hopen
    rcases hopen with (ho | ho) | ho
    · have := hfr _ ho
      simp [Event.tag] at this
    · exact hIo _ ho
    · simp at ho
      exact hlib (ho.trans h0)
  · have hl : lib = lib' := by
      simp only [List.mem_append, List.mem_cons, List.mem_singleton, List.not_mem_nil,
        or_false] at hopen
      rcases hopen with (ho | ho) | ho
      · rcases hcase with ⟨_, _, m, rfl⟩ | ⟨_, _, fn, api, m, rfl⟩ | ⟨_, _, fn, api, m, rfl⟩ <;>
          simp at ho
      · exact absurd ho (hIo _)
      · simp at ho
        exact ho
    subst hl
    rcases hcase with ⟨hz, hb, m, rfl⟩ | ⟨hz, hb, fn, api, m, rfl⟩ | ⟨hz, hb, fn, api, m, rfl⟩
    · subst hb
      simp only [calls_append, hIc, hIp]
      exact ⟨fun _ => by simp [calls, Event.tag], by simp,
        fun _ => ⟨trivial, by simp [calls, Event.tag]⟩,
        fun _ _ _ => ⟨trivial, by simp [calls, Event.tag], by simp [calls, Event.tag]⟩⟩
    · subst hb
      simp only [calls_append, hIc, hIp]
      refine ⟨by simp, fun _ => by simp [calls, Event.tag], ?_, ?_⟩
      · rintro ⟨sym, hm⟩
        exact absurd (hInull sym hm (by simp [Event.tag])) (hz sym)
      · intro fs hfs hnull
        exact absurd (hmiss fs hfs hnull) (hz _)
    · subst hb
      simp only [calls_append, hIc, hIp]
      refine ⟨fun _ => by simp [calls, Event.tag], by simp, ?_, ?_⟩
      · rintro ⟨sym, hm⟩
        exact absurd (hInull sym hm (by simp [Event.tag])) (hz sym)
      · intro fs hfs hnull
        exact absurd (hmiss fs hfs hnull) (hz _)

theorem link_sycl_dso_releases_witness :
    (link_sycl_dso envMissing "ggml-sycl.so" State.init).1 = false ∧
      calls .cosmo_dlclose (added State.init (link_sycl_dso envMissing "ggml-sycl.so"
        State.init).2) = [Event.cosmo_dlclose 7] ∧
      calls .ggml_sycl_link (added State.init (link_sycl_dso envMissing "ggml-sycl.so"
        State.init).2) = [] :=
  (link_sycl_dso_releases envMissing "ggml-sycl.so" State.init 7 (by decide) (by decide)).2.2.2
    (.get_device_id, "ggml_backend_sycl_get_device_id") (by decide) (fun _ => rfl)

/-- C4, as the claim states it, fails: with this backend forced, no
compiler found and no prebuilt library in the archive, the first
`llamafile_has_sycl()` returns true when an up-to-date library built earlier
is on disk and links. -/
theorem forced_sycl_uses_cached_library :
    envCached.FLAG_gpu = .SYCL ∧
      (∀ s, (get_compiler_path envCached s).1 = none) ∧
      (∀ s, (FileExists envCached (prebuilt_zip envCached "ggml-sycl") s).1 = false) ∧
      llamafile_has_sycl envCached 0 State.init =
        .ret true (final_state (llamafile_has_sycl envCached 0 State.init)) :=
  ⟨rfl, fun _ => rfl, fun _ => rfl, rfl⟩

/-- C4, amended: with this backend forced (`FLAG_gpu == LLAMAFILE_GPU_SYCL`),
Metal absent, no compiler found and no library that links (`link_sycl_dso`
returns false whenever it is called), the first `llamafile_has_sycl()`
prints the fatal error and ends the process with `exit(1)`: it does not
return, whatever the fuel. -/
theorem forced_sycl_is_fatal (env : Env) (fuel : Nat) (hgpu : env.FLAG_gpu = .SYCL)
    (hmetal : env.llamafile_has_metal [] = false)
    (hcc : ∀ s, (get_compiler_path env s).1 = none)
    (hlink : ∀ s, (link_sycl_dso env (dso_path env) s).1 = false) :
    ∃ s', llamafile_has_sycl env fuel State.init = .exited 1 s' ∧
      s'.trace.head? = some (Event.exit 1) ∧
      ∃ msg, Event.tinyprint 2 msg ∈ s'.trace := by
  rw [has_sycl_first env fuel State.init rfl]
  have hm : env.llamafile_has_metal State.init.trace = false := hmetal
  simp only [hm, Bool.false_eq_true, if_false]
  obtain ⟨r, hr⟩ := import_sycl_impl_returns env 0 fuel (Or.inl hcc)
    ((State.init.set_once 1).log (Event.llamafile_has_metal false))
  have hfalse : r.1 = false := by
    rcases import_sycl_impl_cases _ _ _ _ hr with ⟨h1, _⟩ | ⟨s1, _, h2⟩
    · exact h1
    · rw [h2]
      exact hlink s1
  obtain ⟨b, s2⟩ := r
  dsimp only at hfalse
  subst hfalse
  rw [hr]
  simp only [hgpu, if_true]
  exact ⟨_, rfl, rfl, _, List.mem_cons_of_mem _ (List.mem_cons_self _ _)⟩

theorem forced_sycl_is_fatal_witness :
    envBare.FLAG_gpu = .SYCL ∧ envBare.llamafile_has_metal [] = false ∧
      ∃ s', llamafile_has_sycl envBare 0 State.init = .exited 1 s' ∧
        s'.trace.head? = some (Event.exit 1) ∧
        ∃ msg, Event.tinyprint 2 msg ∈ s'.trace :=
  ⟨rfl, rfl, forced_sycl_is_fatal envBare 0 rfl rfl (fun _ => rfl) (fun _ => rfl)⟩

/-- C5: in every mode other than SYCL the process is never ended:
`llamafile_has_sycl()` never reaches `exit`, from any state and with any
fuel.  With fuel above the longest run of waits the environment fails with
`EINTR`, the first call returns, and its verdict is true only if the probe
`ggml_sycl.link` returned true.  Whenever the first call returns, its
verdict is false after each failure: a `mkdir` that failed with another
error than `EEXIST`, a staleness check that erred, an extraction that
failed, no temporary file, a spawn error, a wait that failed with another
error than `EINTR` or gave a nonzero status, a rename that failed, a library
that did not open, a missing symbol, a negative probe; and, with
compilation not disabled, no compiler found while a build was needed
(`FLAG_recompile`, an asset extracted, or a library never reported up to
date). -/
theorem auto_is_never_fatal (env : Env) (hgpu : env.FLAG_gpu ≠ .SYCL) :
    (∀ fuel s code s', llamafile_has_sycl env fuel s ≠ .exited code s') ∧
    (∀ k fuel, EintrBounded env k → k < fuel →
      ∃ v s', llamafile_has_sycl env fuel State.init = .ret v s' ∧
        (v = true ↔ ∃ fn api, Event.ggml_sycl_link fn api true ∈ s'.trace)) ∧
    (∀ fuel v s', llamafile_has_sycl env fuel State.init = .ret v s' →
      (∀ p m rc errno, Event.mkdir p m rc errno ∈ s'.trace → rc ≠ 0 → errno ≠ env.EEXIST →
        v = false) ∧
      (∀ p o, Event.llamafile_is_file_newer_than p o .error ∈ s'.trace → v = false) ∧
      (∀ zip dst, Event.llamafile_extract zip dst false ∈ s'.trace → v = false) ∧
      (∀ t p, Event.mkostemp t (-1) p ∈ s'.trace → v = false) ∧
      (∀ args err pid, Event.posix_spawnp args err pid ∈ s'.trace → err ≠ 0 → v = false) ∧
      (∀ pid errno, Event.waitpid pid (.fail errno) ∈ s'.trace → errno ≠ env.EINTR →
        v = false) ∧
      (∀ pid ws, Event.waitpid pid (.status ws) ∈ s'.trace → ws ≠ 0 → v = false) ∧
      (∀ a o rc, Event.rename a o rc ∈ s'.trace → rc ≠ 0 → v = false) ∧
      (∀ p, Event.cosmo_dlopen p 0 ∈ s'.trace → v = false) ∧
      (∀ lib sym, Event.cosmo_dlsym lib sym 0 ∈ s'.trace → v = false) ∧
      (∀ fn api, Event.ggml_sycl_link fn api false ∈ s'.trace → v = false) ∧
      (env.FLAG_nocompile = false → (∀ s0, (get_compiler_path env s0).1 = none) →
        (env.FLAG_recompile = true ∨ calls .llamafile_extract s'.trace ≠ [] ∨
          ∀ t, env.llamafile_is_file_newer_than t
            (strlcat (llamafile_get_app_dir env env.PATH_MAX) "ggml-sycl.cpp" env.PATH_MAX)
            (dso_path env) ≠ .no) →
        v = false)) := by
  refine ⟨?_, ?_, ?_⟩
  · intro fuel s code s'
    by_cases h0 : s.ggml_sycl.once = 0
    · rw [has_sycl_first env fuel s h0]
      repeat' split
      all_goals simp
    · rw [has_sycl_done env fuel s h0]
      simp
  · intro k fuel hk hf
    obtain ⟨r, hr⟩ := import_sycl_impl_returns env k fuel (Or.inr ⟨hk, hf⟩)
      ((State.init.set_once 1).log (Event.llamafile_has_metal false))
    have hret : ∃ v s', llamafile_has_sycl env fuel State.init = .ret v s' := by
      rw [has_sycl_first env fuel State.init rfl]
      split
      · exact ⟨_, _, rfl⟩
      · rw [hr]
        obtain ⟨b, s2⟩ := r
        cases b
        · simp only [hgpu, if_false]
          exact ⟨_, _, rfl⟩
        · exact ⟨_, _, rfl⟩
    obtain ⟨v, s', h⟩ := hret
    obtain ⟨h1, h2, _⟩ := has_sycl_init_facts env fuel v s' h
    exact ⟨v, s', h, by rw [h1, h2]⟩
  · intro fuel v s' h
    cases v with
    | false => simp
    | true =>
      obtain ⟨c1, c2⟩ := has_sycl_init_clean env fuel s' h
      have key : ∀ e ∈ s'.trace, failed env e = true → False := by
        intro e he hf
        rw [c1 e he] at hf
        cases hf
      refine ⟨?_, ?_, ?_, ?_, ?_, ?_, ?_, ?_, ?_, ?_, ?_, ?_⟩
      · intro p m rc errno hm h1 h2
        exact (key _ hm (by simp [failed, h1, h2])).elim
      · intro p o hm
        exact (key _ hm (by simp [failed])).elim
      · intro zip dst hm
        exact (key _ hm (by simp [failed])).elim
      · intro t p hm
        exact (key _ hm (by simp [failed])).elim
      · intro args err pid hm h1
        exact (key _ hm (by simp [failed, h1])).elim
      · intro pid errno hm h1
        exact (key _ hm (by simp [failed, h1])).elim
      · intro pid ws hm h1
        exact (key _ hm (by simp [failed, h1])).elim
      · intro a o rc hm h1
        exact (key _ hm (by simp [failed, h1])).elim
      · intro p hm
        exact (key _ hm (by simp [failed])).elim
      · intro lib sym hm
        exact (key _ hm (by simp [failed])).elim
      · intro fn api hm
        exact (key _ hm (by simp [failed])).elim
      · intro hnc hcc hneed
        obtain ⟨d1, d2, t, d3⟩ := c2 hnc hcc
        rcases hneed with h1 | h1 | h1
        · rw [d1] at h1
          cases h1
        · exact absurd d2 h1
        · exact absurd d3 (h1 t)

theorem auto_is_never_fatal_witness :
    envStale.FLAG_gpu ≠ .SYCL ∧
      llamafile_has_sycl envStale 1 State.init ≠ .exited 1 State.init ∧
      (∃ v s', llamafile_has_sycl envStale 1 State.init = .ret v s' ∧
        (v = true ↔ ∃ fn api, Event.ggml_sycl_link fn api true ∈ s'.trace)) ∧
      llamafile_has_sycl envMissing 0 State.init ≠
        .ret true (final_state (llamafile_has_sycl envMissing 0 State.init)) :=
  ⟨by decide, (auto_is_never_fatal envStale (by decide)).1 1 State.init 1 State.init,
    (auto_is_never_fatal envStale (by decide)).2.1 0 1
      (fun _ _ _ => by simp [envStale, envAuto]) (by decide),
    fun h => Bool.noConfusion
      (((auto_is_never_fatal envMissing (by decide)).2.2 0 true _ h).2.2.2.2.2.2.2.2.2.1 7
        "ggml_backend_sycl_get_device_id" (by decide))⟩

/-- C6: `Compile` returns true if and only if the compiler was spawned
(`posix_spawnp` gave no error), the wait for it gave a zero status and
`rename(tmp, out)` succeeded.  When it returns false no rename succeeded, so
the target path is as it was, and `unlink(tmp)` has been called.  It does
return as soon as the fuel exceeds the longest run of waits the environment
fails with `EINTR`. -/
theorem Compile_contract (env : Env) (fuel : Nat) (src tmp out : String)
    (args : List String) (s : State) :
    (∀ b s', Compile env fuel src tmp out args s = some (b, s') →
      (b = true ↔
        (∃ pid, Event.posix_spawnp args 0 pid ∈ added s s' ∧
          Event.waitpid pid (.status 0) ∈ added s s') ∧
        Event.rename tmp out 0 ∈ added s s') ∧
      (b = false →
        (∀ a o, Event.rename a o 0 ∉ added s s') ∧ Event.unlink tmp ∈ added s s')) ∧
    (∀ k, EintrBounded env k → k < fuel →
      ∃ r, Compile env fuel src tmp out args s = some r) := by
  refine ⟨?_, fun k hk hf => Compile_returns env k hk fuel hf src tmp out args s⟩
  intro b s' h
  obtain ⟨err, pid, n, front, hadd, hc⟩ := Compile_added _ _ _ _ _ _ _ _ _ h
  rw [hadd]
  rcases hc with ⟨h1, h2, h3, h4⟩ | ⟨h1, h3, e, he, h4⟩ | ⟨h1, h3, ws, msg, hws, h4⟩ |
    ⟨h1, h3, rc, hrc, h4⟩ | ⟨h1, h3, h4⟩
  all_goals subst h3 h4
  · simp [List.mem_replicate]
  · simp [List.mem_replicate]
  · simp [List.mem_replicate]
  · simp [List.mem_replicate]
    exact ⟨fun _ hh => hrc hh.symm, fun hh => hrc hh.symm⟩
  · simp [List.mem_replicate, h1]

theorem Compile_contract_witness :
    Compile envAuto 1 "a.cpp" "o.tmp" "o.so" ["icpx"] State.init =
        some (true, final (Compile envAuto 1 "a.cpp" "o.tmp" "o.so" ["icpx"] State.init)) ∧
      Event.rename "o.tmp" "o.so" 0 ∈
        added State.init
          (final (Compile envAuto 1 "a.cpp" "o.tmp" "o.so" ["icpx"] State.init)) ∧
      ∃ r, Compile envAuto 1 "a.cpp" "o.tmp" "o.so" ["icpx"] State.init = some r :=
  ⟨rfl, (((Compile_contract envAuto 1 "a.cpp" "o.tmp" "o.so" ["icpx"] State.init).1
    true _ rfl).1.1 rfl).2,
    (Compile_contract envAuto 1 "a.cpp" "o.tmp" "o.so" ["icpx"] State.init).2 0
      (fun _ _ _ => by simp [envAuto]) (by decide)⟩

/-- C7: in mode Auto or SYCL, off OpenBSD, with compilation not disabled
and the assets materialized, `import_sycl_impl` links the compiled library
directly (it calls `cosmo_dlopen` and spawns no compiler) if and only if no
asset was extracted, `FLAG_recompile` is false and the staleness oracle
answers that the primary source, `ggml-sycl.cpp` in the application
directory, is not newer than the library; its result is then exactly that of
`link_sycl_dso(dso)`.  This holds from every state, so for every run. -/
theorem skip_compilation_iff (env : Env) (fuel : Nat) (s : State) (nr : Bool)
    (src : String) (s1 : State) (hbsd : env.IsOpenbsd = false)
    (hmode : env.FLAG_gpu = .AUTO ∨ env.FLAG_gpu = .SYCL)
    (hnc : env.FLAG_nocompile = false)
    (hmat : extract_source_code env srcs 0 env.FLAG_recompile ""
      (s.log (Event.tinylog "import_sycl_impl: initializing gpu module...\n")) =
        (some (nr, src), s1)) :
    src = strlcat (llamafile_get_app_dir env env.PATH_MAX) "ggml-sycl.cpp" env.PATH_MAX ∧
    (∀ b s', import_sycl_impl env fuel s = some (b, s') →
      (((∃ lib, Event.cosmo_dlopen (dso_path env) lib ∈ added s s') ∧
          ∀ args err pid, Event.posix_spawnp args err pid ∉ added s s') ↔
        ((∀ zip dst ok, Event.llamafile_extract zip dst ok ∉ added s s1) ∧
          env.FLAG_recompile = false ∧
          env.llamafile_is_file_newer_than (get_compiler_path env s1).2.trace src
            (dso_path env) = .no))) ∧
    (((∀ zip dst ok, Event.llamafile_extract zip dst ok ∉ added s s1) ∧
        env.FLAG_recompile = false ∧
        env.llamafile_is_file_newer_than (get_compiler_path env s1).2.trace src
          (dso_path env) = .no) →
      import_sycl_impl env fuel s = some (link_sycl_dso env (dso_path env)
        ((get_compiler_path env s1).2.log
          (Event.llamafile_is_file_newer_than src (dso_path env) .no)))) := by
  obtain ⟨hu, hs1, hsrc, hnr⟩ := import_sycl_impl_unfold env fuel s nr src s1 hbsd hmode hmat
  refine ⟨hsrc, ?_, ?_⟩
  · intro b s' h
    rw [hu] at h
    have hst := load_sycl_step _ _ _ _ _ _ h
    have hiff := load_sycl_direct_iff env fuel nr src s1 b s' hmode hnc h
    have hnone : ∀ e ∈ added s s1, e.tag ≠ .cosmo_dlopen ∧ e.tag ≠ .posix_spawnp := by
      intro e he
      have := hs1.tag_mem e he
      revert this
      simp only [matTags, List.mem_cons, List.mem_singleton, List.not_mem_nil, or_false]
      rintro (h | h | h | h | h | h | h | h) <;> rw [h] <;> simp
    rw [added_trans hs1 hst]
    dsimp only
    have hleft : ((∃ lib, Event.cosmo_dlopen (dso_path env) lib ∈ added s1 s' ++ added s s1) ∧
        ∀ args err pid, Event.posix_spawnp args err pid ∉ added s1 s' ++ added s s1) ↔
        ((∃ lib, Event.cosmo_dlopen (dso_path env) lib ∈ added s1 s') ∧
        ∀ args err pid, Event.posix_spawnp args err pid ∉ added s1 s') := by
      constructor
      · rintro ⟨⟨lib, h1⟩, h2⟩
        refine ⟨⟨lib, ?_⟩, fun args err pid hm => h2 args err pid (List.mem_append_left _ hm)⟩
        rcases List.mem_append.1 h1 with h1 | h1
        · exact h1
        · exact absurd rfl (hnone _ h1).1
      · rintro ⟨⟨lib, h1⟩, h2⟩
        refine ⟨⟨lib, List.mem_append_left _ h1⟩, fun args err pid hm => ?_⟩
        rcases List.mem_append.1 hm with hm | hm
        · exact h2 args err pid hm
        · exact absurd rfl (hnone _ hm).2
    rw [hleft, hiff, hnr]
    tauto
  · rintro ⟨h1, h2, h3⟩
    rw [hu, load_sycl_unfold env fuel nr src s1 hmode]
    have hnr' : nr = false := hnr.2 ⟨h2, h1⟩
    simp only [hnc, Bool.false_eq_true, if_false, hnr', h2, Bool.not_false, Bool.and_self,
      if_true, h3]

theorem skip_compilation_iff_witness :
    (∃ lib, Event.cosmo_dlopen (dso_path envAuto) lib ∈
        added State.init (final (import_sycl_impl envAuto 0 State.init))) ∧
      ∀ args err pid, Event.posix_spawnp args err pid ∉
        added State.init (final (import_sycl_impl envAuto 0 State.init)) := by
  have hfresh : ∀ e ∈ added State.init (extract_source_code envAuto srcs 0 false ""
      (State.init.log (Event.tinylog "import_sycl_impl: initializing gpu module...\n"))).2,
      e.tag ≠ .llamafile_extract := by decide
  exact ((skip_compilation_iff envAuto 0 State.init false "/home/u/.llamafile/ggml-sycl.cpp"
    _ rfl (Or.inl rfl) rfl rfl).2.1 true _ rfl).2
    ⟨fun zip dst ok hm => hfresh _ hm rfl, rfl, rfl⟩

/-- C9: in a process where `llamafile_has_sycl()` has not been called yet
and whose first call returns, that call runs `import_sycl` once (it asks
`llamafile_has_metal` once), and any number of calls, one after the other,
all return the verdict of the first and leave the state as the first call
left it: the later calls make no call of any kind. -/
theorem once_gate (env : Env) (fuel : Nat) (s : State) (v : Bool) (s1 : State)
    (hfresh : s.ggml_sycl.once = 0) (h : llamafile_has_sycl env fuel s = .ret v s1) :
    (calls .llamafile_has_metal (added s s1)).length = 1 ∧
    ∀ n, has_sycl_calls env fuel (n + 1) s = .ret (List.replicate (n + 1) v) s1 := by
  obtain ⟨honce, hv, hc⟩ := has_sycl_ret env fuel s v s1 hfresh h
  constructor
  · rcases hc with ⟨ht, _⟩ | ⟨b, s2, hi, ht, _, _⟩
    · rw [added_eq (by rw [ht]; rfl : s1.trace = [Event.llamafile_has_metal true] ++ s.trace)]
      rfl
    · have hst := import_sycl_impl_step _ _ _ _ hi
      have htr : s1.trace = (added ((s.set_once 1).log (Event.llamafile_has_metal false)) s2 ++
          [Event.llamafile_has_metal false]) ++ s.trace := by
        rw [ht, hst.trace_eq]
        simp [State.log, State.set_once]
      rw [added_eq htr, calls_append, hst.calls_nil (by simp [implTags, preTags])]
      rfl
  · intro n
    unfold has_sycl_calls
    rw [h]
    dsimp only
    rw [has_sycl_calls_done env fuel n s1 (by rw [honce]; decide), ← hv]
    rfl

theorem once_gate_witness :
    has_sycl_calls envAuto 0 3 State.init =
      .ret [true, true, true] (final_state (llamafile_has_sycl envAuto 0 State.init)) :=
  (once_gate envAuto 0 State.init true _ rfl rfl).2 2

/-- C10: the code misses what the claim and the header comment of
`get_compiler_path` (places 1, 2, 3 in order) say: with `icpx` not on
`$PATH` and `$CMPLR_ROOT` set to a directory without a compiler,
`get_compiler_path` returns false although place 3,
`/opt/intel/oneapi/compiler/latest/bin/icpx`, is an executable file. -/
theorem get_compiler_path_skips_oneapi :
    (IsExecutable envRoot "/opt/intel/oneapi/compiler/latest/bin/icpx" State.init).1 = true ∧
      envRoot.commandv [] "icpx" envRoot.PATH_MAX = none ∧
      envRoot.getenv [] "CMPLR_ROOT" = some "/usr/local/intel" ∧
      (IsExecutable envRoot "/usr/local/intel/bin/icpx" State.init).1 = false ∧
      (get_compiler_path envRoot State.init).1 = none := by
  decide

/-- The search `get_compiler_path` performs, as coded, in an environment
whose answers do not change during the call: the path `commandv` found on
`$PATH` if there is one; otherwise, if `$CMPLR_ROOT` is set, only
`$CMPLR_ROOT/bin/icpx` is tried; otherwise only
`/opt/intel/oneapi/compiler/latest/bin/icpx` is tried. -/
theorem get_compiler_path_order (env : Env) (s : State)
    (hroot : ∀ t, env.getenv t "CMPLR_ROOT" = env.getenv s.trace "CMPLR_ROOT")
    (hstat : ∀ t p, env.stat t p = env.stat s.trace p) :
    (get_compiler_path env s).1 =
      match env.commandv s.trace (icpx_name env) env.PATH_MAX,
        env.getenv s.trace "CMPLR_ROOT" with
      | some p, _ => some p
      | none, some root =>
        if root ≠ "" ∧ (IsExecutable env (cmplr_root_icpx env root) s).1 = true
        then some (cmplr_root_icpx env root) else none
      | none, none =>
        if (IsExecutable env (oneapi_icpx env) s).1 = true
        then some (oneapi_icpx env) else none := by
  have hx : ∀ p s', (IsExecutable env p s').1 = (IsExecutable env p s).1 := by
    intro p s'
    simp only [IsExecutable]
    rw [hstat s'.trace p]
    cases env.stat s.trace p <;> rfl
  unfold get_compiler_path cmplr_root_icpx oneapi_icpx icpx_name
  dsimp only
  generalize (if env.IsWindows = true then "icpx.exe" else "icpx") = name
  cases hc : env.commandv s.trace name env.PATH_MAX with
  | some p => rfl
  | none =>
    dsimp only
    rw [hroot]
    cases hr : env.getenv s.trace "CMPLR_ROOT" with
    | none =>
      dsimp only
      rw [hx]
      split <;> rfl
    | some root =>
      dsimp only
      rw [hx]
      by_cases h0 : root = ""
      · simp [h0]
      · simp only [h0, if_false, ne_eq, not_false_eq_true, true_and]
        split <;> rfl

end Llamafile
